import Mathlib

/-! xcompmgr-simple: damage tracking, stacking order and the two-pass paint

A shallow embedding of `xcompmgr-simple.cpp`.

* The global `std::vector<Client *> clients` is a list of addresses together
  with a heap mapping every address to the record stored there; `new Client`
  takes the next unused address.
* An X resource id (`Window`, `Pixmap`, `Picture`, `Damage`) is a natural
  number, `0` being `None`.
* An `XserverRegion` handle is `Option Region`: `none` is the handle `0`, and
  `some r` is a live handle whose region is the pixel set `r`.
* Answers of the X server (window attributes, picture formats, window shapes,
  reported damage, freshly created ids) are read from an `XServer` record.
* A request that names the null region where a region is required fails with
  `BadRegion`; `error_handler` ignores the error, so such a request changes
  nothing.
-/

namespace Xcompmgr

/-! ## Data model -/

abbrev Window := Nat
abbrev Pixmap := Nat
abbrev Picture := Nat
abbrev Damage := Nat
abbrev Drawable := Nat
abbrev Visual := Nat

/-- Address of a heap-allocated `Client`. -/
abbrev Ptr := Nat

/-- A region of the XFixes extension: a finite set of pixels. -/
abbrev Region := Finset (Int × Int)

/-- An `XserverRegion` handle; `none` is the handle `0`. -/
abbrev XserverRegion := Option Region

inductive Window_Opaqueness where
  | SOLID
  | TRANSPARENT
  | ARGB
  deriving DecidableEq, Repr

/-- Value stored by an assignment to a `short` field. -/
def toShort (i : Int) : Int := (i + 32768) % 65536 - 32768

/-- Value stored by an assignment to an `unsigned short` field. -/
def toUShort (i : Int) : Int := i % 65536

/-- Xlib `XRectangle`: `short x, y; unsigned short width, height`. -/
structure XRectangle where
  x : Int
  y : Int
  width : Int
  height : Int
  deriving DecidableEq, Repr

/-- The `XRectangle` obtained by assigning four `int` expressions to its
fields, as in `r.x = ...; r.y = ...; r.width = ...; r.height = ...`. -/
def XRectangle.assign (x y width height : Int) : XRectangle :=
  { x := toShort x, y := toShort y, width := toUShort width, height := toUShort height }

/-- Pixels covered by a rectangle. -/
def XRectangle.pixels (r : XRectangle) : Region :=
  Finset.Ico r.x (r.x + r.width) ×ˢ Finset.Ico r.y (r.y + r.height)

/-- The call `XFixesCreateRegion(display, rects, n)`: the union of the rectangles. -/
def XFixesCreateRegion (rects : List XRectangle) : Region :=
  rects.foldl (fun acc r => acc ∪ r.pixels) ∅

/-- The call `XFixesTranslateRegion(display, region, dx, dy)`. -/
def XFixesTranslateRegion (region : Region) (dx dy : Int) : Region :=
  region.image (fun p => (p.1 + dx, p.2 + dy))

def InputOnly : Int := 2
def IsUnmapped : Int := 0
def IsViewable : Int := 2
def PlaceOnTop : Int := 0
def PlaceOnBottom : Int := 1
def PictTypeDirect : Int := 1
def ShapeBounding : Int := 0
def ShapeClip : Int := 1

/-- The fields of `XWindowAttributes` the program reads or writes. -/
structure XWindowAttributes where
  x : Int
  y : Int
  width : Int
  height : Int
  border_width : Int
  visual : Visual
  c_class : Int
  map_state : Int
  override_redirect : Bool

/-- The fields of `XRenderPictFormat` the program reads. -/
structure XRenderPictFormat where
  type : Int
  alphaMask : Int

structure Client where
  window : Window
  pixmap : Pixmap
  attr : XWindowAttributes
  opaqueness : Window_Opaqueness
  damaged : Int
  damage : Damage
  picture : Picture
  alpha_pict : Picture
  border_size : XserverRegion
  extents : XserverRegion
  shaped : Bool
  shape_bounds : XRectangle
  border_clip : XserverRegion

/-- Answers of the X server to the queries the program makes. -/
structure XServer where
  /-- Result of `XGetWindowAttributes`; `none` when the call returns 0. -/
  getWindowAttributes : Window → Option XWindowAttributes
  /-- Result of `XRenderFindVisualFormat`; `none` is the null pointer. -/
  findVisualFormat : Visual → Option XRenderPictFormat
  /-- Result of `XDamageCreate`. -/
  damageCreate : Window → Damage
  /-- Result of `XCompositeNameWindowPixmap`. -/
  nameWindowPixmap : Window → Pixmap
  /-- Result of `XRenderCreatePicture`. -/
  createPicture : Drawable → Picture
  /-- Result of `XFixesCreateRegionFromWindow(display, window, WindowRegionBounding)`. -/
  regionFromWindow : Window → Region
  /-- The region `XDamageSubtract(display, damage, 0, parts)` stores in `parts`. -/
  damageSubtract : Damage → Region
  /-- Picture made by `create_root_tile`. -/
  rootTile : Picture
  /-- Picture made for `root_buffer`. -/
  rootBuffer : Picture

/-- The global variables of the program. -/
structure State where
  clients : List Ptr
  heap : Ptr → Client
  /-- Address the next `new Client` returns. -/
  next : Ptr
  all_damage : XserverRegion
  clip_changed : Bool
  root_window : Window
  root_width : Int
  root_height : Int
  root_picture : Picture
  root_buffer : Picture
  root_tile : Picture

/-- Window ids of the clients, front to back. -/
def State.ids (s : State) : List Window :=
  s.clients.map (fun p => (s.heap p).window)

/-! ## Stacking order -/

/-- First loop of `restack_win`: walks the vector, storing each element in
`moving_client`; at the first element whose window is `moving_window` it
erases that element and stops.  Returns the final `moving_client` and the
vector. `mc` is the value of `moving_client` on entry. -/
def restack_scan (key : Ptr → Window) (moving_window : Window) :
    List Ptr → Option Ptr → Option Ptr × List Ptr
  | [], mc => (mc, [])
  | p :: rest, _ =>
    if key p = moving_window then (some p, rest)
    else ((restack_scan key moving_window rest (some p)).1,
          p :: (restack_scan key moving_window rest (some p)).2)

/-- Second loop of `restack_win`: inserts `moving_client` before the first
element whose window is `target_window`; `none` when the loop ends without
finding one. -/
def restack_insert (key : Ptr → Window) (target_window : Window) (moving_client : Ptr) :
    List Ptr → Option (List Ptr)
  | [] => none
  | p :: rest =>
    if key p = target_window then some (moving_client :: p :: rest)
    else (restack_insert key target_window moving_client rest).map (fun l => p :: l)

def restack_win (s : State) (moving_window target_window : Window) : State :=
  let key := fun p => (s.heap p).window
  let scan := restack_scan key moving_window s.clients none
  match scan.1 with
  | none => { s with clients := scan.2 }
  | some moving_client =>
    if target_window ≠ 0 then
      match restack_insert key target_window moving_client scan.2 with
      | some l => { s with clients := l }
      | none => { s with clients := scan.2 }
    else
      { s with clients := scan.2 ++ [moving_client] }

/-! ## Damage accumulator and per-window resources -/

def client_extents (client : Client) : Region :=
  XFixesCreateRegion
    [XRectangle.assign client.attr.x client.attr.y
      (client.attr.width + client.attr.border_width * 2)
      (client.attr.height + client.attr.border_width * 2)]

def get_border_size (X : XServer) (client : Client) : Region :=
  XFixesTranslateRegion (X.regionFromWindow client.window)
    (client.attr.x + client.attr.border_width)
    (client.attr.y + client.attr.border_width)

/-- The argument is a live region handle; its ownership moves to the
accumulator. -/
def add_damage (s : State) (damage : Region) : State :=
  match s.all_damage with
  | some all => { s with all_damage := some (all ∪ damage) }
  | none => { s with all_damage := some damage }

def finish_unmap_client (s : State) (p : Ptr) : State :=
  let client := s.heap p
  let s1 := match client.extents with
    | some extents => add_damage s extents
    | none => s
  let client1 : Client :=
    { client with
      damaged := 0
      extents := none
      pixmap := if client.pixmap ≠ 0 then 0 else client.pixmap
      picture := if client.picture ≠ 0 then 0 else client.picture
      border_size := none
      border_clip := none }
  { s1 with heap := Function.update s1.heap p client1, clip_changed := true }

/-- The address of the first client whose window is `id`; `none` is the
null pointer. -/
def get_client_from_window (s : State) (id : Window) : Option Ptr :=
  s.clients.find? (fun p => decide ((s.heap p).window = id))

/-- The assignment `client->attr.map_state = map_state`. -/
def with_map_state (client : Client) (map_state : Int) : Client :=
  { client with attr := { client.attr with map_state := map_state } }

def unmap_win (s : State) (window : Window) : State :=
  match get_client_from_window s window with
  | none => s
  | some p =>
    let s1 := { s with heap := Function.update s.heap p (with_map_state (s.heap p) IsUnmapped) }
    finish_unmap_client s1 p

def determine_opaqueness (X : XServer) (s : State) (p : Ptr) : State :=
  let client := s.heap p
  let format : Option XRenderPictFormat :=
    if client.attr.c_class = InputOnly then none else X.findVisualFormat client.attr.visual
  let opaqueness : Window_Opaqueness :=
    match format with
    | some f =>
      if f.type = PictTypeDirect ∧ f.alphaMask ≠ 0 then Window_Opaqueness.ARGB
      else Window_Opaqueness.SOLID
    | none => Window_Opaqueness.SOLID
  let client1 : Client :=
    { client with
      alpha_pict := if client.alpha_pict ≠ 0 then 0 else client.alpha_pict
      opaqueness := opaqueness }
  let s1 := { s with heap := Function.update s.heap p client1 }
  match client1.extents with
  | some extents => add_damage s1 extents
  | none => s1

def map_win (X : XServer) (s : State) (window : Window) : State :=
  match get_client_from_window s window with
  | none => s
  | some p =>
    let s1 := { s with heap := Function.update s.heap p (with_map_state (s.heap p) IsViewable) }
    let s2 := determine_opaqueness X s1 p
    { s2 with heap := Function.update s2.heap p { s2.heap p with damaged := 0 } }

/-- The record `add_client` fills in. `uninit` is the content of the
`opaqueness` field of the freshly allocated record, which `add_client` does
not initialise. -/
def new_client (X : XServer) (window : Window) (attr : XWindowAttributes)
    (uninit : Window_Opaqueness) : Client :=
  { window := window
    attr := attr
    shaped := false
    shape_bounds := XRectangle.assign attr.x attr.y attr.width attr.height
    damaged := 0
    pixmap := 0
    picture := 0
    damage := if attr.c_class = InputOnly then 0 else X.damageCreate window
    alpha_pict := 0
    border_size := none
    extents := none
    border_clip := none
    opaqueness := uninit }

def add_client (X : XServer) (s : State) (window : Window) (uninit : Window_Opaqueness) :
    State :=
  match X.getWindowAttributes window with
  | none => s
  | some attr =>
    let s1 :=
      { s with
        heap := Function.update s.heap s.next (new_client X window attr uninit)
        clients := s.next :: s.clients
        next := s.next + 1 }
    if attr.map_state = IsViewable then map_win X s1 window else s1

structure XConfigureEvent where
  window : Window
  x : Int
  y : Int
  width : Int
  height : Int
  border_width : Int
  above : Window
  override_redirect : Bool

/-- The writes of `configure_client` to the record before `restack_win`:
`shape_bounds` made window-relative, a stale pixmap and picture dropped, the
geometry of the event stored. -/
def configure_geometry (client : Client) (ce : XConfigureEvent) : Client :=
  let resized : Bool := decide (client.attr.width ≠ ce.width ∨ client.attr.height ≠ ce.height)
  { client with
    shape_bounds :=
      { client.shape_bounds with
        x := toShort (client.shape_bounds.x - client.attr.x)
        y := toShort (client.shape_bounds.y - client.attr.y) }
    pixmap := if resized then (if client.pixmap ≠ 0 then 0 else client.pixmap)
      else client.pixmap
    picture :=
      if resized then
        (if client.pixmap ≠ 0 then (if client.picture ≠ 0 then 0 else client.picture)
         else client.picture)
      else client.picture
    attr :=
      { client.attr with
        x := ce.x
        y := ce.y
        width := ce.width
        height := ce.height
        border_width := ce.border_width
        override_redirect := ce.override_redirect } }

/-- The writes of `configure_client` to the record after `add_damage`:
`shape_bounds` made absolute again, and resized unless the window is shaped. -/
def configure_shape_bounds (client : Client) : Client :=
  { client with
    shape_bounds :=
      { x := toShort (client.shape_bounds.x + client.attr.x)
        y := toShort (client.shape_bounds.y + client.attr.y)
        width := if client.shaped then client.shape_bounds.width
          else toUShort client.attr.width
        height := if client.shaped then client.shape_bounds.height
          else toUShort client.attr.height } }

def configure_client (s : State) (ce : XConfigureEvent) : State :=
  match get_client_from_window s ce.window with
  | none =>
    if ce.window = s.root_window then
      { s with
        root_buffer := if s.root_buffer ≠ 0 then 0 else s.root_buffer
        root_width := ce.width
        root_height := ce.height }
    else s
  | some p =>
    let client := s.heap p
    -- the handle made by XFixesCreateRegion is never 0
    let damage : Region := match client.extents with
      | some extents => extents
      | none => ∅
    let s1 := { s with heap := Function.update s.heap p (configure_geometry client ce) }
    let s2 := restack_win s1 ce.window ce.above
    let s3 := add_damage s2 (damage ∪ client_extents (s2.heap p))
    { s3 with
      heap := Function.update s3.heap p (configure_shape_bounds (s3.heap p))
      clip_changed := true }

structure XCirculateEvent where
  window : Window
  place : Int

/-- The argument `uninit` is the content of the local `target_window`, which stays
uninitialised when `place` is neither `PlaceOnTop` nor `PlaceOnBottom`. -/
def circulate_client (s : State) (ce : XCirculateEvent) (uninit : Window) : State :=
  match get_client_from_window s ce.window with
  | none => s
  | some p =>
    let target_window : Window :=
      if ce.place = PlaceOnTop then (s.heap (s.clients.headD p)).window
      else if ce.place = PlaceOnBottom then 0
      else uninit
    { restack_win s (s.heap p).window target_window with clip_changed := true }

/-- The handles `destroy_win` frees in the record it found. -/
def destroy_release (w : Client) : Client :=
  { w with
    picture := if w.picture ≠ 0 then 0 else w.picture
    alpha_pict := if w.alpha_pict ≠ 0 then 0 else w.alpha_pict
    damage := if w.damage ≠ 0 then 0 else w.damage }

def destroy_win (s : State) (window : Window) (gone : Bool) : State :=
  -- `i` after the loop: index of the first client with this window, or the size
  let i := s.clients.findIdx (fun p => decide ((s.heap p).window = window))
  let s1 := match get_client_from_window s window with
    | none => s
    | some p =>
      let s0 := if gone then finish_unmap_client s p else s
      { s0 with heap := Function.update s0.heap p (destroy_release (s0.heap p)) }
  { s1 with clients := s1.clients.eraseIdx i }

structure XDamageNotifyEvent where
  drawable : Drawable

def damage_client (X : XServer) (s : State) (de : XDamageNotifyEvent) : State :=
  match get_client_from_window s de.drawable with
  | none => s
  | some p =>
    let client := s.heap p
    let parts : Region :=
      if client.damaged = 0 then client_extents client
      else XFixesTranslateRegion (X.damageSubtract client.damage)
        (client.attr.x + client.attr.border_width)
        (client.attr.y + client.attr.border_width)
    let s1 := add_damage s parts
    { s1 with heap := Function.update s1.heap p { s1.heap p with damaged := 1 } }

/-! ## The paint pass -/

inductive PictOp where
  | PictOpSrc
  | PictOpOver
  deriving DecidableEq, Repr

/-- The rendering requests the paint pass sends. -/
inductive XReq where
  /-- The request `XFixesSetPictureClipRegion(display, picture, 0, 0, region)`. -/
  | setClip (picture : Picture) (region : XserverRegion)
  /-- The request
  `XRenderComposite(display, op, src, mask, dst, 0, 0, 0, 0, x, y, width, height)`.
  `clip` is the clip region of `dst` at the time of the request, as set by the
  last `XFixesSetPictureClipRegion` before it (`none`: unclipped); `client` is
  the address of the client whose picture is `src`, if `src` is a window. -/
  | composite (op : PictOp) (src mask dst : Picture) (x y width height : Int)
      (clip : XserverRegion) (client : Option Ptr)

/-- Whether a request is a composite whose source is the client at `p`. -/
def XReq.drawsClient (p : Ptr) : XReq → Bool
  | XReq.setClip _ _ => false
  | XReq.composite _ _ _ _ _ _ _ _ _ client => decide (client = some p)

/-- The clip region a composite is issued under; `none` for other requests
and for an unclipped composite. -/
def XReq.clipOf : XReq → XserverRegion
  | XReq.setClip _ _ => none
  | XReq.composite _ _ _ _ _ _ _ _ clip _ => clip

/-- What the loops of `paint_all` carry along: the client records, the local
`region`, and the requests sent so far. -/
structure PaintAcc where
  heap : Ptr → Client
  region : Region
  reqs : List XReq

/-- The test `attr.x + attr.width < 1 || attr.y + attr.height < 1 ||
attr.x >= root_width || attr.y >= root_height` of the first loop. -/
def invisible (root_width root_height : Int) (w : Client) : Bool :=
  decide (w.attr.x + w.attr.width < 1 ∨ w.attr.y + w.attr.height < 1
    ∨ w.attr.x ≥ root_width ∨ w.attr.y ≥ root_height)

/-- The block `if (!w->picture)` of the first loop: the window pixmap is named
if there is none, and a picture is created on the pixmap, or on the window if
the pixmap is still `0`. -/
def ensure_picture (X : XServer) (w : Client) : Client :=
  if w.picture = 0 then
    let pixmap : Pixmap := if w.pixmap = 0 then X.nameWindowPixmap w.window else w.pixmap
    let draw : Drawable := if pixmap ≠ 0 then pixmap else w.window
    { w with pixmap := pixmap, picture := X.createPicture draw }
  else w

/-- The block `if (clip_changed)` of the first loop: the cached regions are
destroyed. -/
def drop_cached (clip_changed : Bool) (w : Client) : Client :=
  if clip_changed then
    { w with border_size := none, extents := none, border_clip := none }
  else w

/-- The statements `if (w->border_size == 0) ...; if (w->extents == 0) ...` of the
first loop. -/
def ensure_regions (X : XServer) (w : Client) : Client :=
  { w with
    border_size := match w.border_size with
      | some r => some r
      | none => some (get_border_size X w)
    extents := match w.extents with
      | some r => some r
      | none => some (client_extents w) }

/-- The call `XFixesSubtractRegion(display, region, region, size)`. -/
def subtract_region (region : Region) (size : XserverRegion) : Region :=
  match size with
  | some b => region \ b
  | none => region

/-- The call `XFixesIntersectRegion(display, clip, clip, size)`. -/
def intersect_region (clip size : XserverRegion) : XserverRegion :=
  match clip, size with
  | some c, some b => some (c ∩ b)
  | c, _ => c

/-- Body of the first (front-to-back) loop of `paint_all` for the client at `p`. -/
def paint_front (X : XServer) (clip_changed : Bool) (root_width root_height : Int)
    (root_buffer : Picture) (acc : PaintAcc) (p : Ptr) : PaintAcc :=
  let w := acc.heap p
  if w.damaged = 0 then acc
  else if invisible root_width root_height w then acc
  else
    let w1 := ensure_regions X (drop_cached clip_changed (ensure_picture X w))
    let solid : Bool := decide (w1.opaqueness = Window_Opaqueness.SOLID)
    let region1 : Region := if solid then subtract_region acc.region w1.border_size else acc.region
    let reqs1 : List XReq :=
      if solid then
        acc.reqs ++
          [XReq.setClip root_buffer (some acc.region),
           XReq.composite PictOp.PictOpSrc w1.picture 0 root_buffer w1.attr.x w1.attr.y
             (w1.attr.width + w1.attr.border_width * 2)
             (w1.attr.height + w1.attr.border_width * 2)
             (some acc.region) (some p)]
      else acc.reqs
    let border_clip : XserverRegion := match w1.border_clip with
      | some r => some r
      | none => some region1
    { heap := Function.update acc.heap p { w1 with border_clip := border_clip }
      region := region1
      reqs := reqs1 }

/-- Body of the second (back-to-front) loop of `paint_all` for the client at `p`. -/
def paint_back (root_buffer : Picture) (acc : PaintAcc) (p : Ptr) : PaintAcc :=
  let w := acc.heap p
  let reqs0 := acc.reqs ++ [XReq.setClip root_buffer w.border_clip]
  let blended : Bool :=
    decide (w.opaqueness = Window_Opaqueness.TRANSPARENT)
      || decide (w.opaqueness = Window_Opaqueness.ARGB)
  let border_clip1 : XserverRegion :=
    if blended then intersect_region w.border_clip w.border_size else w.border_clip
  let reqs1 : List XReq :=
    if blended then
      reqs0 ++
        [XReq.setClip root_buffer border_clip1,
         XReq.composite PictOp.PictOpOver w.picture w.alpha_pict root_buffer w.attr.x w.attr.y
           (w.attr.width + w.attr.border_width * 2)
           (w.attr.height + w.attr.border_width * 2)
           border_clip1 (some p)]
    else reqs0
  { heap := Function.update acc.heap p { w with border_clip := none }
    region := acc.region
    reqs := reqs1 }

/-- The region `paint_all` works on: its argument, or the whole screen when
the argument is the handle `0`. -/
def paint_target (s : State) (region : XserverRegion) : Region :=
  match region with
  | some r => r
  | none => XFixesCreateRegion [XRectangle.assign 0 0 s.root_width s.root_height]

/-- The global `root_buffer` once `paint_all` has created it if it was missing. -/
def paint_buffer (X : XServer) (s : State) : Picture :=
  if s.root_buffer = 0 then X.rootBuffer else s.root_buffer

/-- The function `paint_all` up to the end of its first loop. -/
def paint_pass1 (X : XServer) (s : State) (region : XserverRegion) : PaintAcc :=
  s.clients.foldl
    (paint_front X s.clip_changed s.root_width s.root_height (paint_buffer X s))
    { heap := s.heap
      region := paint_target s region
      reqs := [XReq.setClip s.root_picture (some (paint_target s region))] }

/-- The global `root_tile` once `paint_root` has created it if it was missing. -/
def paint_tile (X : XServer) (s : State) : Picture :=
  if s.root_tile = 0 then X.rootTile else s.root_tile

/-- The clip set after the first loop, and `paint_root`. -/
def paint_root (X : XServer) (s : State) (acc : PaintAcc) : PaintAcc :=
  { acc with
    reqs := acc.reqs ++
      [XReq.setClip (paint_buffer X s) (some acc.region),
       XReq.composite PictOp.PictOpSrc (paint_tile X s) 0 (paint_buffer X s) 0 0
         s.root_width s.root_height (some acc.region) none] }

/-- The function `paint_all` up to the end of its second loop, which runs
`for (int i = clients.size(); i--;)`: last element first. -/
def paint_pass2 (X : XServer) (s : State) (region : XserverRegion) : PaintAcc :=
  s.clients.foldr (fun p acc => paint_back (paint_buffer X s) acc p)
    (paint_root X s (paint_pass1 X s region))

/-- The paint pass: the state after it and the requests it sent, in order.
`region` is the handle passed in; `none` is `0`. -/
def paint_all (X : XServer) (s : State) (region : XserverRegion) : State × List XReq :=
  let acc := paint_pass2 X s region
  let reqs : List XReq :=
    if paint_buffer X s ≠ s.root_picture then
      acc.reqs ++
        [XReq.setClip (paint_buffer X s) none,
         XReq.composite PictOp.PictOpSrc (paint_buffer X s) 0 s.root_picture 0 0
           s.root_width s.root_height (some (paint_target s region)) none]
    else acc.reqs
  ({ s with heap := acc.heap, root_buffer := paint_buffer X s, root_tile := paint_tile X s },
   reqs)

structure XShapeEvent where
  window : Window
  kind : Int
  shaped : Bool
  x : Int
  y : Int
  width : Int
  height : Int

def shape_win (X : XServer) (s : State) (se : XShapeEvent) : State × List XReq :=
  match get_client_from_window s se.window with
  | none => (s, [])
  | some p =>
    if se.kind = ShapeClip ∨ se.kind = ShapeBounding then
      let client := s.heap p
      let region0 : Region := XFixesCreateRegion [client.shape_bounds]
      let client1 : Client :=
        if se.shaped then
          { client with
            shaped := true
            shape_bounds :=
              { x := toShort (client.attr.x + se.x)
                y := toShort (client.attr.y + se.y)
                width := toUShort se.width
                height := toUShort se.height } }
        else
          { client with
            shaped := false
            shape_bounds :=
              XRectangle.assign client.attr.x client.attr.y client.attr.width client.attr.height }
      let region1 : Region := XFixesCreateRegion [client1.shape_bounds]
      let s1 := { s with heap := Function.update s.heap p client1, clip_changed := true }
      paint_all X s1 (some (region0 ∪ region1))
    else (s, [])

/-- The end of one turn of the main loop, after the event queue is drained:
`if (all_damage != 0) { paint_all(all_damage); ...; all_damage = 0;
clip_changed = false; }`. -/
def frame_step (X : XServer) (s : State) : State × List XReq :=
  match s.all_damage with
  | some damage =>
    ({ (paint_all X s (some damage)).1 with all_damage := none, clip_changed := false },
     (paint_all X s (some damage)).2)
  | none => (s, [])

/-! ## Notification handlers as events -/

/-- One call of a notification handler. -/
inductive Handler where
  | add (window : Window) (uninit : Window_Opaqueness)
  | destroy (window : Window) (gone : Bool)
  | map (window : Window)
  | unmap (window : Window)
  | configure (ce : XConfigureEvent)
  | circulate (ce : XCirculateEvent) (uninit : Window)
  | restack (moving_window target_window : Window)

def Handler.run (X : XServer) (s : State) : Handler → State
  | Handler.add window uninit => add_client X s window uninit
  | Handler.destroy window gone => destroy_win s window gone
  | Handler.map window => map_win X s window
  | Handler.unmap window => unmap_win s window
  | Handler.configure ce => configure_client s ce
  | Handler.circulate ce uninit => circulate_client s ce uninit
  | Handler.restack moving_window target_window => restack_win s moving_window target_window

/-- The state after a sequence of handler calls. -/
def runHandlers (X : XServer) (s : State) (hs : List Handler) : State :=
  hs.foldl (Handler.run X) s

/-- A record with every field zero. -/
def Client.zero : Client :=
  { window := 0
    pixmap := 0
    attr :=
      { x := 0, y := 0, width := 0, height := 0, border_width := 0, visual := 0
        c_class := 0, map_state := 0, override_redirect := false }
    opaqueness := Window_Opaqueness.SOLID
    damaged := 0
    damage := 0
    picture := 0
    alpha_pict := 0
    border_size := none
    extents := none
    shaped := false
    shape_bounds := { x := 0, y := 0, width := 0, height := 0 }
    border_clip := none }

/-- The globals when `main` has finished its set-up and no window is known:
an empty client list, `all_damage = 0`, `clip_changed = true`. -/
def State.init (root_window : Window) (root_width root_height : Int) (root_picture : Picture) :
    State :=
  { clients := []
    heap := fun _ => Client.zero
    next := 0
    all_damage := none
    clip_changed := true
    root_window := root_window
    root_width := root_width
    root_height := root_height
    root_picture := root_picture
    root_buffer := 0
    root_tile := 0 }

/-! ## Sequences of handler calls on registered and new windows -/

/-- The handler `add_client` is called for a window that is not registered yet, and
`restack_win` for a moving window that is registered (as its two callers
`configure_client` and `circulate_client` do); the other handlers look their
window up themselves. -/
def Handler.admissible (s : State) : Handler → Bool
  | Handler.add window _ => (get_client_from_window s window).isNone
  | Handler.restack moving_window _ => (get_client_from_window s moving_window).isSome
  | _ => true

/-- Every call of the sequence is admissible in the state it is made in. -/
def admissibleRun (X : XServer) : State → List Handler → Bool
  | _, [] => true
  | s, h :: hs => h.admissible s && admissibleRun X (h.run X s) hs

/-- The second state has the client list and the allocation counter of the
first, and every record has kept its window id. -/
def Keeps (s t : State) : Prop :=
  t.clients = s.clients ∧ t.next = s.next ∧ ∀ q, (t.heap q).window = (s.heap q).window

/-- Window ids are pairwise distinct and every listed address is allocated. -/
def Registry (s : State) : Prop :=
  s.ids.Nodup ∧ ∀ p ∈ s.clients, p < s.next

/-! ## The main loop -/

/-- The function `expose_root`: the argument lists the rectangles `XFixesCreateRegion`
reads from the address of the first one. -/
def expose_root (s : State) (rectangles : List XRectangle) : State :=
  add_damage s (XFixesCreateRegion rectangles)

/-- The events `main` dispatches on. -/
inductive XEvent where
  | CreateNotify (window : Window) (uninit : Window_Opaqueness)
  | ConfigureNotify (ce : XConfigureEvent)
  | DestroyNotify (window : Window)
  | MapNotify (window : Window)
  | UnmapNotify (window : Window)
  | ReparentNotify (window parent : Window) (uninit : Window_Opaqueness)
  | CirculateNotify (ce : XCirculateEvent) (uninit : Window)
  /-- An `Expose` event; `rects` is what `expose_root` reads once the event
  with `count == 0` has arrived. -/
  | Expose (window : Window) (count : Int) (rects : List XRectangle)
  /-- A `PropertyNotify` event; `background` tells whether the atom is one of
  `backgroundProps`, `opacity` whether it is `opacity_atom`. -/
  | PropertyNotify (window : Window) (background opacity : Bool)
  | DamageNotify (de : XDamageNotifyEvent)
  | ShapeNotify (se : XShapeEvent)
  | Other

/-- The `switch (ev.type)` of `main`. -/
def main_event (X : XServer) (s : State) : XEvent → State
  | XEvent.CreateNotify window uninit => add_client X s window uninit
  | XEvent.ConfigureNotify ce => configure_client s ce
  | XEvent.DestroyNotify window => destroy_win s window true
  | XEvent.MapNotify window => map_win X s window
  | XEvent.UnmapNotify window => unmap_win s window
  | XEvent.ReparentNotify window parent uninit =>
    if parent = s.root_window then add_client X s window uninit
    else destroy_win s window false
  | XEvent.CirculateNotify ce uninit => circulate_client s ce uninit
  | XEvent.Expose window count rects =>
    if window = s.root_window then
      (if count = 0 then expose_root s rects else s)
    else s
  | XEvent.PropertyNotify window background opacity =>
    let s1 :=
      if background then
        (if s.root_tile ≠ 0 then { s with root_tile := 0 } else s)
      else s
    if opacity then
      (match get_client_from_window s1 window with
       | some p => determine_opaqueness X s1 p
       | none => s1)
    else s1
  | XEvent.DamageNotify de => damage_client X s de
  | XEvent.ShapeNotify se => (shape_win X s se).1
  | XEvent.Other => s

/-- What `main` does after its set-up: it registers the windows that exist
(the same call as for `CreateNotify`), paints the whole screen once, and then
alternates between draining the event queue and the frame step. -/
inductive MainStep where
  | event (ev : XEvent)
  | first_paint
  | frame

def main_step (X : XServer) (s : State) : MainStep → State
  | MainStep.event ev => main_event X s ev
  | MainStep.first_paint => (paint_all X s none).1
  | MainStep.frame => (frame_step X s).1

/-- The state `main` is in after the given steps. -/
def runMain (X : XServer) (s : State) (steps : List MainStep) : State :=
  steps.foldl (main_step X) s

/-- The record holds neither a `border_clip` nor an alpha mask. -/
def Idle (c : Client) : Prop :=
  c.border_clip = none ∧ c.alpha_pict = 0

/-- No address is listed twice, every listed address is allocated, and no
record holds a `border_clip` or an alpha mask: what holds whenever `main`
is between two handlers, and so whenever a paint pass starts. -/
def PaintReady (s : State) : Prop :=
  s.clients.Nodup ∧ (∀ p ∈ s.clients, p < s.next) ∧ ∀ q, Idle (s.heap q)

/-- The second state lists a rearrangement of a part of the addresses of the
first, allocates nothing, and all its records are idle if those of the first
are. -/
def Settles (s t : State) : Prop :=
  t.clients.Subperm s.clients ∧ t.next = s.next
  ∧ ((∀ q, Idle (s.heap q)) → ∀ q, Idle (t.heap q))

/-- The second record has the window id, attributes, opaqueness, damage
state, alpha mask and shape of the first: all that the paint pass does not
write. -/
def SameCore (c d : Client) : Prop :=
  d.window = c.window ∧ d.attr = c.attr ∧ d.opaqueness = c.opaqueness
  ∧ d.damaged = c.damaged ∧ d.damage = c.damage ∧ d.alpha_pict = c.alpha_pict
  ∧ d.shaped = c.shaped ∧ d.shape_bounds = c.shape_bounds

/-- The tests of the first loop of `paint_all` that make it skip a client. -/
def skipped (root_width root_height : Int) (w : Client) : Prop :=
  w.damaged = 0 ∨ invisible root_width root_height w = true

/-- The second state has allocated no fewer records than the first, and every
record allocated in the first has kept its window id and, if it was
undamaged, is still undamaged. -/
def Still (s t : State) : Prop :=
  s.next ≤ t.next
  ∧ ∀ q, q < s.next →
      (t.heap q).window = (s.heap q).window
      ∧ ((s.heap q).damaged = 0 → (t.heap q).damaged = 0)

/-- The record at `p` is allocated, belongs to window `W` and is undamaged. -/
def Undamaged (W : Window) (p : Ptr) (s : State) : Prop :=
  p < s.next ∧ (s.heap p).window = W ∧ (s.heap p).damaged = 0

/-- The step is not a damage notification for window `W`. -/
def MainStep.quietFor (W : Window) : MainStep → Prop
  | MainStep.event (XEvent.DamageNotify de) => de.drawable ≠ W
  | _ => True

/-! ## Concrete inputs -/

def demoAttr : XWindowAttributes :=
  { x := 0, y := 0, width := 10, height := 10, border_width := 1, visual := 1
    c_class := 1, map_state := IsViewable, override_redirect := false }

/-- A server on which every window is a viewable 10x10 window whose visual
has an alpha channel. -/
def demoServer : XServer :=
  { getWindowAttributes := fun _ => some demoAttr
    findVisualFormat := fun v =>
      if v = 1 then some { type := PictTypeDirect, alphaMask := 255 } else none
    damageCreate := fun w => w + 100
    nameWindowPixmap := fun w => w + 200
    createPicture := fun d => d + 300
    regionFromWindow := fun _ => (XRectangle.assign 0 0 10 10).pixels
    damageSubtract := fun _ => ∅
    rootTile := 50
    rootBuffer := 51 }

def demoInit : State := State.init 1000 100 100 40

/-- Windows 1 and 2 created in this order: window 2 (at address 1) is in
front of window 1 (at address 0). -/
def demoTwo : State :=
  runHandlers demoServer demoInit
    [Handler.add 1 Window_Opaqueness.SOLID, Handler.add 2 Window_Opaqueness.SOLID]

/-- One registered window (id 1, at address 0) that holds cached regions, a
pixmap and a picture. -/
def demoMasked : State :=
  { demoInit with
    clients := [0]
    heap := fun _ =>
      { Client.zero with
        window := 1
        picture := 8
        pixmap := 9
        damaged := 1
        extents := some (XRectangle.assign 0 0 4 4).pixels
        border_size := some (XRectangle.assign 0 0 4 4).pixels }
    next := 1 }

/-- As `demoServer`, but the visual of window 2 has no alpha channel. -/
def demoMixed : XServer :=
  { demoServer with
    getWindowAttributes := fun w =>
      some (if w = 2 then { demoAttr with visual := 0 } else demoAttr) }

/-- Windows 1 and 2 created in this order and both damaged: window 2 (solid,
at address 1) is in front of window 1 (alpha channel, at address 0). -/
def demoSteps : List MainStep :=
  [MainStep.event (XEvent.CreateNotify 1 Window_Opaqueness.SOLID),
   MainStep.event (XEvent.CreateNotify 2 Window_Opaqueness.SOLID),
   MainStep.first_paint,
   MainStep.event (XEvent.DamageNotify { drawable := 1 }),
   MainStep.event (XEvent.DamageNotify { drawable := 2 })]

/-- As `demoServer`, but `XCompositeNameWindowPixmap` yields no pixmap, so
that pictures are created on the windows themselves. -/
def demoNoPixmap : XServer :=
  { demoServer with nameWindowPixmap := fun _ => 0 }

/-- Window 1 created, damaged and painted by one frame step. -/
def demoPaintedSteps : List MainStep :=
  [MainStep.event (XEvent.CreateNotify 1 Window_Opaqueness.SOLID),
   MainStep.event (XEvent.DamageNotify { drawable := 1 }),
   MainStep.frame]

/-- A configure event for window 1 that doubles its width. -/
def demoResize : XConfigureEvent :=
  { window := 1, x := 0, y := 0, width := 20, height := 10, border_width := 1,
    above := 0, override_redirect := false }

/-- A shape notification for window 1 that reports the bounding shape unset. -/
def demoUnset : XShapeEvent :=
  { window := 1, kind := ShapeBounding, shaped := false, x := 0, y := 0, width := 0, height := 0 }

/-- Window 1 created, damaged, painted by a frame step, and then moved to
x = 500, off the 100x100 screen. -/
def demoOffscreenSteps : List MainStep :=
  demoPaintedSteps ++
    [MainStep.event (XEvent.ConfigureNotify
      { window := 1, x := 500, y := 0, width := 10, height := 10, border_width := 1,
        above := 0, override_redirect := false })]

/-! ## Stacking order: `restack_win` -/

theorem restack_scan_found (key : Ptr → Window) (M : Window) :
    ∀ (l : List Ptr) (mc : Option Ptr), M ∈ l.map key →
      ∃ m pre post, l = pre ++ m :: post ∧ key m = M ∧ (∀ q ∈ pre, key q ≠ M) ∧
        restack_scan key M l mc = (some m, pre ++ post) := by
  intro l
  induction l with
  | nil => intro mc h; simp at h
  | cons p rest ih =>
    intro mc h
    by_cases hp : key p = M
    · exact ⟨p, [], rest, rfl, hp, by simp, by simp [restack_scan, hp]⟩
    · have h2 : M ∈ rest.map key := by
        simp only [List.map_cons, List.mem_cons] at h
        rcases h with h | h
        · exact absurd h.symm hp
        · exact h
      obtain ⟨m, pre, post, hl, hm, hpre, hs⟩ := ih (some p) h2
      refine ⟨m, p :: pre, post, by simp [hl], hm, ?_, ?_⟩
      · intro q hq
        simp only [List.mem_cons] at hq
        rcases hq with rfl | hq
        · exact hp
        · exact hpre q hq
      · simp [restack_scan, hp, hs]

theorem restack_scan_missing (key : Ptr → Window) (M : Window) :
    ∀ (l : List Ptr) (mc : Option Ptr), M ∉ l.map key →
      restack_scan key M l mc = ((l.getLast?).or mc, l) := by
  intro l
  induction l with
  | nil => intro mc _; simp [restack_scan]
  | cons p rest ih =>
    intro mc h
    simp only [List.map_cons, List.mem_cons, not_or] at h
    have hp : ¬ key p = M := fun e => h.1 e.symm
    rw [restack_scan, if_neg hp, ih (some p) h.2]
    cases rest with
    | nil => simp
    | cons q r =>
      have hx : (q :: r).getLast? = some ((q :: r).getLast (by simp)) :=
        List.getLast?_eq_getLast _ (by simp)
      simp [List.getLast?_cons_cons, hx]

theorem restack_insert_found (key : Ptr → Window) (T : Window) (m : Ptr) :
    ∀ (l : List Ptr), T ∈ l.map key →
      ∃ a t b, l = a ++ t :: b ∧ key t = T ∧ (∀ q ∈ a, key q ≠ T) ∧
        restack_insert key T m l = some (a ++ m :: t :: b) := by
  intro l
  induction l with
  | nil => intro h; simp at h
  | cons p rest ih =>
    intro h
    by_cases hp : key p = T
    · exact ⟨[], p, rest, rfl, hp, by simp, by simp [restack_insert, hp]⟩
    · have h2 : T ∈ rest.map key := by
        simp only [List.map_cons, List.mem_cons] at h
        rcases h with h | h
        · exact absurd h.symm hp
        · exact h
      obtain ⟨a, t, b, hl, ht, ha, hs⟩ := ih h2
      refine ⟨p :: a, t, b, by simp [hl], ht, ?_, ?_⟩
      · intro q hq
        simp only [List.mem_cons] at hq
        rcases hq with rfl | hq
        · exact hp
        · exact ha q hq
      · simp [restack_insert, hp, hs]

theorem restack_insert_missing (key : Ptr → Window) (T : Window) (m : Ptr) :
    ∀ (l : List Ptr), T ∉ l.map key → restack_insert key T m l = none := by
  intro l
  induction l with
  | nil => intro _; rfl
  | cons p rest ih =>
    intro h
    simp only [List.map_cons, List.mem_cons, not_or] at h
    have hp : ¬ key p = T := fun e => h.1 e.symm
    simp [restack_insert, hp, ih h.2]

theorem getElem?_append_pair (xs : List Window) (y z : Window) (zs : List Window) :
    (xs ++ y :: z :: zs)[xs.length]? = some y ∧ (xs ++ y :: z :: zs)[xs.length + 1]? = some z := by
  induction xs with
  | nil => simp
  | cons x xs ih => simpa using ih

theorem restack_places (key : Ptr → Window) (M T : Window) (l : List Ptr)
    (hM : M ∈ l.map key) (hT : T ∈ l.map key) (hMT : M ≠ T) :
    ∃ m l2, (restack_scan key M l none).1 = some m ∧
      restack_insert key T m (restack_scan key M l none).2 = some l2 ∧
      (∃ i, (l2.map key)[i]? = some M ∧ (l2.map key)[i + 1]? = some T) ∧
      l2.filter (fun p => decide (key p ≠ M)) = l.filter (fun p => decide (key p ≠ M)) ∧
      l2.Perm l := by
  obtain ⟨m, pre, post, hl, hm, _, hs⟩ := restack_scan_found key M l none hM
  have hT2 : T ∈ (pre ++ post).map key := by
    rw [hl] at hT
    simp only [List.map_append, List.map_cons, List.mem_append, List.mem_cons] at hT ⊢
    rcases hT with h | h | h
    · exact Or.inl h
    · exact absurd (hm ▸ h.symm) hMT
    · exact Or.inr h
  obtain ⟨a, t, b, hab, ht, _, hi⟩ := restack_insert_found key T m (pre ++ post) hT2
  have hpair := getElem?_append_pair (a.map key) M T (b.map key)
  rw [List.length_map] at hpair
  have hmap : (a ++ m :: t :: b).map key = a.map key ++ M :: T :: b.map key := by
    simp [hm, ht]
  refine ⟨m, a ++ m :: t :: b, by rw [hs], by rw [hs]; exact hi, ⟨a.length, ?_, ?_⟩, ?_, ?_⟩
  · rw [hmap]; exact hpair.1
  · rw [hmap]; exact hpair.2
  · have e1 : (a ++ m :: t :: b).filter (fun p => decide (key p ≠ M))
        = (a ++ t :: b).filter (fun p => decide (key p ≠ M)) := by
      simp [List.filter_append, List.filter_cons, hm]
    have e2 : l.filter (fun p => decide (key p ≠ M))
        = (pre ++ post).filter (fun p => decide (key p ≠ M)) := by
      rw [hl]; simp [List.filter_append, List.filter_cons, hm]
    rw [e1, e2, hab]
  · rw [hl]
    have p1 : (a ++ m :: t :: b).Perm (m :: (a ++ t :: b)) := List.perm_middle
    have p2 : (pre ++ m :: post).Perm (m :: (pre ++ post)) := List.perm_middle
    rw [← hab] at p1
    exact p1.trans p2.symm

theorem restack_bottom (key : Ptr → Window) (M : Window) (l : List Ptr)
    (hM : M ∈ l.map key) :
    ∃ m, (restack_scan key M l none).1 = some m ∧
      (((restack_scan key M l none).2 ++ [m]).map key).getLast? = some M ∧
      ((restack_scan key M l none).2 ++ [m]).filter (fun p => decide (key p ≠ M))
        = l.filter (fun p => decide (key p ≠ M)) ∧
      ((restack_scan key M l none).2 ++ [m]).Perm l := by
  obtain ⟨m, pre, post, hl, hm, _, hs⟩ := restack_scan_found key M l none hM
  refine ⟨m, by rw [hs], ?_, ?_, ?_⟩
  · rw [hs]; simp [hm]
  · rw [hs, hl]; simp [List.filter_append, List.filter_cons, hm]
  · rw [hs, hl]
    have p2 : (pre ++ m :: post).Perm (m :: (pre ++ post)) := List.perm_middle
    exact (List.perm_append_singleton m (pre ++ post)).trans p2.symm

/-- C1: in a client list with pairwise distinct window ids that contains `M`,
`restack_win M T` for a registered `T` other than `M` (and other than the
null id `0`, which selects the bottom) leaves `M` at the index immediately
before `T`, and `restack_win M 0` leaves `M` last; in both cases the other
clients keep their relative order, no client is lost or duplicated, and the
ids stay pairwise distinct. -/
theorem restack_win_places (s : State) (M T : Window) (hnd : s.ids.Nodup) (hM : M ∈ s.ids) :
    (T ∈ s.ids → M ≠ T → T ≠ 0 →
        (∃ i, (restack_win s M T).ids[i]? = some M ∧ (restack_win s M T).ids[i + 1]? = some T)
        ∧ (restack_win s M T).clients.filter (fun p => decide ((s.heap p).window ≠ M))
            = s.clients.filter (fun p => decide ((s.heap p).window ≠ M))
        ∧ (restack_win s M T).clients.Perm s.clients
        ∧ (restack_win s M T).ids.Nodup
        ∧ (restack_win s M T).heap = s.heap)
    ∧ ((restack_win s M 0).ids.getLast? = some M
        ∧ (restack_win s M 0).clients.filter (fun p => decide ((s.heap p).window ≠ M))
            = s.clients.filter (fun p => decide ((s.heap p).window ≠ M))
        ∧ (restack_win s M 0).clients.Perm s.clients
        ∧ (restack_win s M 0).ids.Nodup
        ∧ (restack_win s M 0).heap = s.heap) := by
  constructor
  · intro hT hMT hT0
    obtain ⟨m, l2, h1, h2, h3, h4, h5⟩ :=
      restack_places (fun p => (s.heap p).window) M T s.clients hM hT hMT
    have e : restack_win s M T = { s with clients := l2 } := by
      simp only [restack_win, h1, h2, if_pos hT0]
    rw [e]
    exact ⟨h3, h4, h5, ((h5.map _).nodup_iff).2 hnd, rfl⟩
  · obtain ⟨m, h1, h2, h3, h4⟩ :=
      restack_bottom (fun p => (s.heap p).window) M s.clients hM
    have e : restack_win s M 0
        = { s with
            clients := (restack_scan (fun p => (s.heap p).window) M s.clients none).2 ++ [m] } := by
      simp [restack_win, h1]
    rw [e]
    exact ⟨h2, h3, h4, ((h4.map _).nodup_iff).2 hnd, rfl⟩

/-- In `demoTwo` (ids `[2, 1]`), moving window 1 before window 2 puts 1 at
index 0 and 2 at index 1. -/
theorem restack_win_places_witness :
    ∃ i, (restack_win demoTwo 1 2).ids[i]? = some 1 ∧ (restack_win demoTwo 1 2).ids[i + 1]? = some 2 :=
  ((restack_win_places demoTwo 1 2 (by decide) (by decide)).1
    (by decide) (by decide) (by decide)).1

/-- C2: `restack_win` is not a no-op on unknown ids.  In `demoTwo` (addresses
`[1, 0]`, ids `[2, 1]`): with moving id 2 and the unknown target 7 the client
of window 2 is erased and never put back, also when the call comes from
`configure_client` for an event whose `above` is 7; with the unknown moving
id 9 and target 1 the last client is inserted a second time. -/
theorem restack_win_unknown_changes_list :
    demoTwo.clients = [1, 0] ∧ demoTwo.ids = [2, 1]
    ∧ get_client_from_window demoTwo 7 = none
    ∧ (restack_win demoTwo 2 7).clients = [0]
    ∧ (configure_client demoTwo
        { window := 2, x := 0, y := 0, width := 10, height := 10, border_width := 1,
          above := 7, override_redirect := false }).ids = [1]
    ∧ get_client_from_window demoTwo 9 = none
    ∧ (restack_win demoTwo 9 1).clients = [1, 0, 0] := by
  decide

/-! ## Damage accumulator and frame step -/

theorem foldl_invariant {α β : Type} (P : α → Prop) (f : α → β → α)
    (hf : ∀ a b, P a → P (f a b)) : ∀ (l : List β) (a : α), P a → P (l.foldl f a) := by
  intro l
  induction l with
  | nil => intro a h; exact h
  | cons b l ih => intro a h; exact ih (f a b) (hf a b h)

theorem foldr_invariant {α β : Type} (P : α → Prop) (f : β → α → α)
    (hf : ∀ b a, P a → P (f b a)) : ∀ (l : List β) (a : α), P a → P (l.foldr f a) := by
  intro l
  induction l with
  | nil => intro a h; exact h
  | cons b l ih => intro a h; exact hf b _ (ih a h)

theorem head?_append_some {α : Type} (l t : List α) (x : α) (h : l.head? = some x) :
    (l ++ t).head? = some x := by
  cases l with
  | nil => simp at h
  | cons a l => simpa using h

theorem paint_front_head (X : XServer) (cc : Bool) (rw rh : Int) (rb : Picture) (x : XReq)
    (acc : PaintAcc) (p : Ptr) (h : acc.reqs.head? = some x) :
    (paint_front X cc rw rh rb acc p).reqs.head? = some x := by
  unfold paint_front
  simp only
  split
  · exact h
  · split
    · exact h
    · simp only
      split
      · exact head?_append_some _ _ _ h
      · exact h

theorem paint_back_head (rb : Picture) (x : XReq)
    (acc : PaintAcc) (p : Ptr) (h : acc.reqs.head? = some x) :
    (paint_back rb acc p).reqs.head? = some x := by
  unfold paint_back
  simp only
  split
  · exact head?_append_some _ _ _ (head?_append_some _ _ _ h)
  · exact head?_append_some _ _ _ h

theorem paint_pass1_head (X : XServer) (s : State) (region : XserverRegion) :
    (paint_pass1 X s region).reqs.head?
      = some (XReq.setClip s.root_picture (some (paint_target s region))) :=
  foldl_invariant
    (fun acc : PaintAcc =>
      acc.reqs.head? = some (XReq.setClip s.root_picture (some (paint_target s region))))
    _ (fun a b h => paint_front_head X _ _ _ _ _ a b h) s.clients _ rfl

theorem paint_pass2_head (X : XServer) (s : State) (region : XserverRegion) :
    (paint_pass2 X s region).reqs.head?
      = some (XReq.setClip s.root_picture (some (paint_target s region))) :=
  foldr_invariant
    (fun acc : PaintAcc =>
      acc.reqs.head? = some (XReq.setClip s.root_picture (some (paint_target s region))))
    _ (fun b a h => paint_back_head _ _ a b h) s.clients _
    (head?_append_some _ _ _ (paint_pass1_head X s region))

theorem paint_all_head (X : XServer) (s : State) (region : XserverRegion) :
    (paint_all X s region).2.head?
      = some (XReq.setClip s.root_picture (some (paint_target s region))) := by
  unfold paint_all
  simp only
  split
  · exact head?_append_some _ _ _ (paint_pass2_head X s region)
  · exact paint_pass2_head X s region

theorem add_damage_all_damage (s : State) (damage : Region) :
    (add_damage s damage).all_damage = some (match s.all_damage with
      | some all => all ∪ damage
      | none => damage) := by
  unfold add_damage
  cases h : s.all_damage <;> simp

theorem add_damage_rest (s : State) (damage : Region) :
    (add_damage s damage).clients = s.clients ∧ (add_damage s damage).heap = s.heap
    ∧ (add_damage s damage).next = s.next
    ∧ (add_damage s damage).clip_changed = s.clip_changed
    ∧ (add_damage s damage).root_picture = s.root_picture := by
  unfold add_damage
  cases h : s.all_damage <;> simp

theorem add_damage_foldl (rs : List Region) :
    ∀ (s : State) (a : Region), s.all_damage = some a →
      (rs.foldl add_damage s).all_damage = some (rs.foldl (fun x y => x ∪ y) a)
      ∧ (rs.foldl add_damage s).root_picture = s.root_picture := by
  induction rs with
  | nil => intro s a h; exact ⟨h, rfl⟩
  | cons r rs ih =>
    intro s a h
    have h1 : (add_damage s r).all_damage = some (a ∪ r) := by
      rw [add_damage_all_damage, h]
    obtain ⟨h2, h3⟩ := ih (add_damage s r) (a ∪ r) h1
    exact ⟨h2, h3.trans (add_damage_rest s r).2.2.2.2⟩

theorem mem_foldl_union (rs : List Region) :
    ∀ (a : Region) (pt : Int × Int),
      pt ∈ rs.foldl (fun x y => x ∪ y) a ↔ pt ∈ a ∨ ∃ r ∈ rs, pt ∈ r := by
  induction rs with
  | nil => intro a pt; simp
  | cons r rs ih =>
    intro a pt
    rw [List.foldl_cons, ih]
    simp only [Finset.mem_union, List.mem_cons, exists_eq_or_imp]
    tauto

/-- C3: starting from an empty accumulator, after `add_damage` of the regions
`r, rs...` the accumulator holds exactly their union; the frame step passes
that region to `paint_all` (whose first request clips `root_picture` to it)
and empties the accumulator, so a frame step directly after it sends no
request and changes nothing. -/
theorem add_damage_frame (X : XServer) (s : State) (r : Region) (rs : List Region)
    (h0 : s.all_damage = none) :
    ((r :: rs).foldl add_damage s).all_damage = some (rs.foldl (fun x y => x ∪ y) r)
    ∧ (∀ pt, pt ∈ rs.foldl (fun x y => x ∪ y) r ↔ ∃ q ∈ r :: rs, pt ∈ q)
    ∧ frame_step X ((r :: rs).foldl add_damage s)
        = ({ (paint_all X ((r :: rs).foldl add_damage s)
                (some (rs.foldl (fun x y => x ∪ y) r))).1 with
              all_damage := none, clip_changed := false },
           (paint_all X ((r :: rs).foldl add_damage s)
              (some (rs.foldl (fun x y => x ∪ y) r))).2)
    ∧ (frame_step X ((r :: rs).foldl add_damage s)).2.head?
        = some (XReq.setClip s.root_picture (some (rs.foldl (fun x y => x ∪ y) r)))
    ∧ (frame_step X ((r :: rs).foldl add_damage s)).1.all_damage = none
    ∧ frame_step X (frame_step X ((r :: rs).foldl add_damage s)).1
        = ((frame_step X ((r :: rs).foldl add_damage s)).1, []) := by
  have h1 : (add_damage s r).all_damage = some r := by
    rw [add_damage_all_damage, h0]
  obtain ⟨h2, h3⟩ := add_damage_foldl rs (add_damage s r) r h1
  have h4 : ((r :: rs).foldl add_damage s).all_damage
      = some (rs.foldl (fun x y => x ∪ y) r) := h2
  have h5 : ((r :: rs).foldl add_damage s).root_picture = s.root_picture :=
    h3.trans (add_damage_rest s r).2.2.2.2
  have h6 : frame_step X ((r :: rs).foldl add_damage s)
        = ({ (paint_all X ((r :: rs).foldl add_damage s)
                (some (rs.foldl (fun x y => x ∪ y) r))).1 with
              all_damage := none, clip_changed := false },
           (paint_all X ((r :: rs).foldl add_damage s)
              (some (rs.foldl (fun x y => x ∪ y) r))).2) := by
    simp only [frame_step, h4]
  refine ⟨h4, ?_, h6, ?_, ?_, ?_⟩
  · intro pt
    rw [mem_foldl_union]
    simp only [List.mem_cons, exists_eq_or_imp]
  · rw [h6]
    simp only
    rw [paint_all_head, h5]
    rfl
  · rw [h6]
  · rw [h6]
    simp only [frame_step]

/-- Two rectangles added to the empty accumulator of `demoInit`. -/
theorem add_damage_frame_witness :
    ([(XRectangle.assign 0 0 2 2).pixels, (XRectangle.assign 5 5 1 1).pixels].foldl
        add_damage demoInit).all_damage
      = some ([(XRectangle.assign 5 5 1 1).pixels].foldl (fun x y => x ∪ y)
          (XRectangle.assign 0 0 2 2).pixels) :=
  (add_damage_frame demoServer demoInit (XRectangle.assign 0 0 2 2).pixels
    [(XRectangle.assign 5 5 1 1).pixels] rfl).1

/-! ## The registry invariant -/

theorem Keeps.refl (s : State) : Keeps s s := ⟨rfl, rfl, fun _ => rfl⟩

theorem Keeps.trans {s t u : State} (h1 : Keeps s t) (h2 : Keeps t u) : Keeps s u :=
  ⟨h2.1.trans h1.1, h2.2.1.trans h1.2.1, fun q => (h2.2.2 q).trans (h1.2.2 q)⟩

theorem Keeps.ids {s t : State} (h : Keeps s t) : t.ids = s.ids := by
  unfold State.ids
  rw [h.1]
  exact List.map_congr_left (fun q _ => h.2.2 q)

theorem Keeps.registry {s t : State} (h : Keeps s t) (hs : Registry s) : Registry t := by
  refine ⟨by rw [h.ids]; exact hs.1, ?_⟩
  rw [h.1, h.2.1]
  exact hs.2

theorem Keeps.lookup {s t : State} (h : Keeps s t) (w : Window) :
    get_client_from_window t w = get_client_from_window s w := by
  unfold get_client_from_window
  rw [h.1]
  congr 1
  funext q
  rw [h.2.2 q]

/-- Overwriting a record by one with the same window id. -/
theorem keeps_update (s : State) (p : Ptr) (c : Client) (hc : c.window = (s.heap p).window) :
    Keeps s { s with heap := Function.update s.heap p c } := by
  refine ⟨rfl, rfl, fun q => ?_⟩
  by_cases hq : q = p
  · subst hq; simp [hc]
  · simp [Function.update_noteq hq]

theorem keeps_add_damage (s : State) (damage : Region) : Keeps s (add_damage s damage) := by
  unfold add_damage
  cases s.all_damage <;> exact ⟨rfl, rfl, fun _ => rfl⟩

theorem keeps_finish_unmap_client (s : State) (p : Ptr) : Keeps s (finish_unmap_client s p) := by
  unfold finish_unmap_client
  simp only
  cases h : (s.heap p).extents with
  | none =>
    simp only
    refine ⟨rfl, rfl, fun q => ?_⟩
    by_cases hq : q = p
    · subst hq; simp
    · simp [Function.update_noteq hq]
  | some e =>
    simp only
    have hk := keeps_add_damage s e
    refine ⟨hk.1, hk.2.1, fun q => ?_⟩
    by_cases hq : q = p
    · subst hq; simp
    · simp only [Function.update_noteq hq]; exact hk.2.2 q

theorem keeps_unmap_win (s : State) (window : Window) : Keeps s (unmap_win s window) := by
  unfold unmap_win
  cases h : get_client_from_window s window with
  | none => exact Keeps.refl s
  | some p =>
    simp only
    refine Keeps.trans ?_ (keeps_finish_unmap_client _ p)
    exact keeps_update s p _ rfl

theorem keeps_determine_opaqueness (X : XServer) (s : State) (p : Ptr) :
    Keeps s (determine_opaqueness X s p) := by
  unfold determine_opaqueness
  simp only
  cases h : (s.heap p).extents with
  | none => exact keeps_update s p _ rfl
  | some e =>
    refine Keeps.trans ?_ (keeps_add_damage _ e)
    exact keeps_update s p _ rfl

theorem keeps_map_win (X : XServer) (s : State) (window : Window) :
    Keeps s (map_win X s window) := by
  unfold map_win
  cases h : get_client_from_window s window with
  | none => exact Keeps.refl s
  | some p =>
    simp only
    refine Keeps.trans ?_ (keeps_update _ p _ rfl)
    refine Keeps.trans ?_ (keeps_determine_opaqueness X _ p)
    exact keeps_update s p _ rfl

theorem lookup_some {s : State} {w : Window} {p : Ptr}
    (h : get_client_from_window s w = some p) : p ∈ s.clients ∧ (s.heap p).window = w := by
  unfold get_client_from_window at h
  exact ⟨List.mem_of_find?_eq_some h, by simpa using List.find?_some h⟩

theorem lookup_none {s : State} {w : Window} :
    get_client_from_window s w = none ↔ w ∉ s.ids := by
  unfold get_client_from_window State.ids
  rw [List.find?_eq_none]
  simp

theorem lookup_mem_ids {s : State} {w : Window} {p : Ptr}
    (h : get_client_from_window s w = some p) : w ∈ s.ids := by
  by_contra hn
  rw [lookup_none.2 hn] at h
  exact Option.noConfusion h

theorem restack_insert_perm (key : Ptr → Window) (T : Window) (m : Ptr) :
    ∀ (l l2 : List Ptr), restack_insert key T m l = some l2 → l2.Perm (m :: l) := by
  intro l
  induction l with
  | nil => intro l2 h; simp [restack_insert] at h
  | cons p rest ih =>
    intro l2 h
    by_cases hp : key p = T
    · simp only [restack_insert, if_pos hp, Option.some.injEq] at h
      rw [← h]
    · simp only [restack_insert, if_neg hp, Option.map_eq_some'] at h
      obtain ⟨l3, h3, rfl⟩ := h
      exact ((ih l3 h3).cons p).trans (List.Perm.swap m p rest)

/-- With a registered moving window, `restack_win` changes only the client
list, to a permutation of the old one or to the old one without the moving
client. -/
theorem restack_win_eq (s : State) (M T : Window) (hM : M ∈ s.ids) :
    ∃ L, restack_win s M T = { s with clients := L }
      ∧ (L.Perm s.clients ∨ L.Sublist s.clients) := by
  obtain ⟨m, pre, post, hl, _, _, hs⟩ :=
    restack_scan_found (fun p => (s.heap p).window) M s.clients none hM
  have p2 : (pre ++ m :: post).Perm (m :: (pre ++ post)) := List.perm_middle
  have hsub : (pre ++ post).Sublist s.clients := by
    rw [hl]
    exact List.Sublist.append (List.Sublist.refl pre) (List.sublist_cons_self m post)
  by_cases hT : T = 0
  · refine ⟨pre ++ post ++ [m], ?_, Or.inl ?_⟩
    · simp only [restack_win, hs, hT, ne_eq, not_true_eq_false, if_false]
    · rw [hl]
      exact (List.perm_append_singleton m (pre ++ post)).trans p2.symm
  · cases hi : restack_insert (fun p => (s.heap p).window) T m (pre ++ post) with
    | none =>
      refine ⟨pre ++ post, ?_, Or.inr hsub⟩
      simp only [restack_win, hs, hi, ne_eq, hT, not_false_eq_true, if_true]
    | some l2 =>
      refine ⟨l2, ?_, Or.inl ?_⟩
      · simp only [restack_win, hs, hi, ne_eq, hT, not_false_eq_true, if_true]
      · rw [hl]
        exact (restack_insert_perm _ T m _ l2 hi).trans p2.symm

theorem restack_win_registered (s : State) (M T : Window) (hM : M ∈ s.ids) :
    (restack_win s M T).heap = s.heap ∧ (restack_win s M T).next = s.next
    ∧ (restack_win s M T).clip_changed = s.clip_changed
    ∧ (restack_win s M T).all_damage = s.all_damage
    ∧ ((restack_win s M T).clients.Perm s.clients
        ∨ (restack_win s M T).clients.Sublist s.clients) := by
  obtain ⟨L, h1, h2⟩ := restack_win_eq s M T hM
  rw [h1]
  exact ⟨rfl, rfl, rfl, rfl, h2⟩

theorem registry_of_clients {s t : State}
    (hh : ∀ q, (t.heap q).window = (s.heap q).window) (hn : s.next ≤ t.next)
    (hc : t.clients.Perm s.clients ∨ t.clients.Sublist s.clients) (hs : Registry s) :
    Registry t := by
  have hsub : ∀ q ∈ t.clients, q ∈ s.clients := by
    intro q hq
    rcases hc with h | h
    · exact h.subset hq
    · exact h.subset hq
  have hids : t.ids = t.clients.map (fun p => (s.heap p).window) :=
    List.map_congr_left (fun q _ => hh q)
  refine ⟨?_, fun q hq => lt_of_lt_of_le (hs.2 q (hsub q hq)) hn⟩
  rw [hids]
  rcases hc with h | h
  · exact ((h.map _).nodup_iff).2 hs.1
  · exact hs.1.sublist (h.map _)

theorem registry_restack_win (s : State) (M T : Window) (hM : M ∈ s.ids) (hs : Registry s) :
    Registry (restack_win s M T) := by
  obtain ⟨h1, h2, _, _, h3⟩ := restack_win_registered s M T hM
  exact registry_of_clients (fun q => by rw [h1]) (le_of_eq h2.symm) h3 hs

theorem registry_destroy_win (s : State) (window : Window) (gone : Bool) (hs : Registry s) :
    Registry (destroy_win s window gone) := by
  unfold destroy_win
  simp only
  cases h : get_client_from_window s window with
  | none =>
    simp only
    exact registry_of_clients (s := s) (fun _ => rfl) (le_refl _)
      (Or.inr (List.eraseIdx_sublist _ _)) hs
  | some p =>
    simp only
    have hk : Keeps s (if gone = true then finish_unmap_client s p else s) := by
      split
      · exact keeps_finish_unmap_client s p
      · exact Keeps.refl s
    have hk2 := hk.trans (keeps_update _ p (destroy_release
      ((if gone = true then finish_unmap_client s p else s).heap p)) rfl)
    refine registry_of_clients (s := s) hk2.2.2 (le_of_eq hk2.2.1.symm) (Or.inr ?_) hs
    simp only
    rw [hk.1]
    exact List.eraseIdx_sublist _ _

theorem keeps_of (s t : State) (p : Ptr) (c : Client) (hc : t.clients = s.clients)
    (hn : t.next = s.next) (hw : c.window = (s.heap p).window)
    (hh : t.heap = Function.update s.heap p c) : Keeps s t := by
  refine ⟨hc, hn, fun q => ?_⟩
  rw [hh]
  by_cases hq : q = p
  · subst hq; simp [hw]
  · simp [Function.update_noteq hq]

theorem registry_add_client (X : XServer) (s : State) (window : Window)
    (uninit : Window_Opaqueness) (hnew : get_client_from_window s window = none)
    (hs : Registry s) : Registry (add_client X s window uninit) := by
  unfold add_client
  cases h : X.getWindowAttributes window with
  | none => exact hs
  | some attr =>
    simp only
    have hfresh : ∀ q ∈ s.clients, q ≠ s.next := fun q hq => Nat.ne_of_lt (hs.2 q hq)
    have h1 : Registry
        { s with
          heap := Function.update s.heap s.next (new_client X window attr uninit)
          clients := s.next :: s.clients
          next := s.next + 1 } := by
      constructor
      · unfold State.ids
        simp only [List.map_cons, Function.update_same, List.nodup_cons]
        have e : List.map (fun p => (Function.update s.heap s.next
            (new_client X window attr uninit) p).window) s.clients = s.ids :=
          List.map_congr_left (fun q hq => by rw [Function.update_noteq (hfresh q hq)])
        rw [e]
        exact ⟨lookup_none.1 hnew, hs.1⟩
      · intro q hq
        simp only [List.mem_cons] at hq
        rcases hq with rfl | hq
        · exact Nat.lt_succ_self _
        · exact Nat.lt_succ_of_lt (hs.2 q hq)
    split
    · exact (keeps_map_win X _ window).registry h1
    · exact h1

theorem registry_configure_client (s : State) (ce : XConfigureEvent) (hs : Registry s) :
    Registry (configure_client s ce) := by
  unfold configure_client
  cases h : get_client_from_window s ce.window with
  | none =>
    simp only
    split
    · exact hs
    · exact hs
  | some p =>
    simp only
    have hk := keeps_update s p (configure_geometry (s.heap p) ce) rfl
    have h2 := registry_restack_win _ ce.window ce.above
      (by rw [hk.ids]; exact lookup_mem_ids h) (hk.registry hs)
    have h3 := (keeps_add_damage _ ((match (s.heap p).extents with
      | some extents => extents
      | none => ∅) ∪ client_extents ((restack_win
        { s with heap := Function.update s.heap p (configure_geometry (s.heap p) ce) }
        ce.window ce.above).heap p))).registry h2
    refine Keeps.registry ?_ h3
    exact keeps_of _ _ p (configure_shape_bounds _) rfl rfl rfl rfl

theorem registry_circulate_client (s : State) (ce : XCirculateEvent) (uninit : Window)
    (hs : Registry s) : Registry (circulate_client s ce uninit) := by
  unfold circulate_client
  cases h : get_client_from_window s ce.window with
  | none => exact hs
  | some p =>
    simp only
    have hM : (s.heap p).window ∈ s.ids := by
      rw [(lookup_some h).2]; exact lookup_mem_ids h
    exact registry_restack_win s _ _ hM hs

theorem registry_run (X : XServer) (s : State) (h : Handler)
    (ha : h.admissible s = true) (hs : Registry s) : Registry (h.run X s) := by
  cases h with
  | add window uninit =>
    exact registry_add_client X s window uninit (by simpa [Handler.admissible] using ha) hs
  | destroy window gone => exact registry_destroy_win s window gone hs
  | map window => exact (keeps_map_win X s window).registry hs
  | unmap window => exact (keeps_unmap_win s window).registry hs
  | configure ce => exact registry_configure_client s ce hs
  | circulate ce uninit => exact registry_circulate_client s ce uninit hs
  | restack moving_window target_window =>
    have hM : moving_window ∈ s.ids := by
      simp only [Handler.admissible, Option.isSome_iff_exists] at ha
      obtain ⟨p, hp⟩ := ha
      exact lookup_mem_ids hp
    exact registry_restack_win s _ _ hM hs

theorem registry_runHandlers (X : XServer) :
    ∀ (hs : List Handler) (s : State), admissibleRun X s hs = true → Registry s →
      Registry (runHandlers X s hs) := by
  intro hs
  induction hs with
  | nil => intro s _ h; exact h
  | cons h hs ih =>
    intro s ha hreg
    simp only [admissibleRun, Bool.and_eq_true] at ha
    exact ih (h.run X s) ha.2 (registry_run X s h ha.1 hreg)

/-- C4 as stated fails: `add_client` does not look the window up before it
inserts, so creating window 5 twice leaves two records with id 5. -/
theorem reachable_ids_repeat :
    ¬ (runHandlers demoServer demoInit
        [Handler.add 5 Window_Opaqueness.SOLID, Handler.add 5 Window_Opaqueness.SOLID]).ids.Nodup := by
  decide

/-- C4, amended: in every state reached from the empty client list by handler
calls in which `add_client` is only called for a window that is not registered
and `restack_win` only for a registered moving window, the client list
contains each window id at most once. -/
theorem reachable_ids_nodup (X : XServer) (root_window : Window) (root_width root_height : Int)
    (root_picture : Picture) (hs : List Handler)
    (ha : admissibleRun X (State.init root_window root_width root_height root_picture) hs = true) :
    (runHandlers X (State.init root_window root_width root_height root_picture) hs).ids.Nodup :=
  (registry_runHandlers X hs _ ha ⟨List.nodup_nil, fun _ h => by cases h⟩).1

/-- Two windows created, one configured above the other, circulated, unmapped,
mapped again and destroyed. -/
theorem reachable_ids_nodup_witness :
    (runHandlers demoServer (State.init 1000 100 100 40)
      [Handler.add 1 Window_Opaqueness.SOLID, Handler.add 2 Window_Opaqueness.SOLID,
       Handler.configure
         { window := 1, x := 3, y := 4, width := 20, height := 10, border_width := 0,
           above := 2, override_redirect := false },
       Handler.circulate { window := 2, place := PlaceOnBottom } 0,
       Handler.unmap 1, Handler.map 1, Handler.restack 2 1,
       Handler.destroy 2 true]).ids.Nodup :=
  reachable_ids_nodup demoServer 1000 100 100 40 _ (by decide)

/-! ## `destroy_win` -/

theorem eraseIdx_findIdx_not_mem (key : Ptr → Window) (W : Window) :
    ∀ (l : List Ptr), (l.map key).count W ≤ 1 →
      W ∉ (l.eraseIdx (l.findIdx (fun p => decide (key p = W)))).map key := by
  intro l
  induction l with
  | nil => intro _; simp
  | cons p rest ih =>
    intro h
    by_cases hp : key p = W
    · have h0 : (rest.map key).count W = 0 := by
        rw [List.map_cons, hp, List.count_cons_self] at h
        omega
      simp only [List.findIdx_cons, hp, decide_True, cond_true, List.eraseIdx_zero, List.tail_cons]
      exact List.count_eq_zero.1 h0
    · have h1 : (rest.map key).count W ≤ 1 := by
        rw [List.map_cons, List.count_cons_of_ne (fun e => hp e.symm)] at h
        exact h
      simp only [List.findIdx_cons, hp, decide_False, cond_false, List.eraseIdx_cons_succ,
        List.map_cons, List.mem_cons, not_or]
      exact ⟨fun e => hp e.symm, ih h1⟩

/-- The client list and the window ids after `destroy_win`. -/
theorem destroy_win_ids (s : State) (window : Window) (gone : Bool) :
    (destroy_win s window gone).ids
      = (s.clients.eraseIdx
          (s.clients.findIdx (fun p => decide ((s.heap p).window = window)))).map
          (fun p => (s.heap p).window) := by
  unfold destroy_win State.ids
  simp only
  cases h : get_client_from_window s window with
  | none => rfl
  | some p =>
    simp only
    have hk : Keeps s (if gone = true then finish_unmap_client s p else s) := by
      split
      · exact keeps_finish_unmap_client s p
      · exact Keeps.refl s
    have hk2 := hk.trans (keeps_update _ p (destroy_release
      ((if gone = true then finish_unmap_client s p else s).heap p)) rfl)
    rw [hk.1]
    exact List.map_congr_left (fun q _ => hk2.2.2 q)

/-- C7 as stated fails: after window 5 was added twice, one `destroy_win`
removes only the first of the two records, and the lookup of 5 still finds
the other. -/
theorem destroy_win_leaves_duplicate :
    get_client_from_window
      (destroy_win
        (runHandlers demoServer demoInit
          [Handler.add 5 Window_Opaqueness.SOLID, Handler.add 5 Window_Opaqueness.SOLID])
        5 true) 5 = some 0 := by
  decide

/-- C7, amended: in every state whose client list holds at most one record
with window id `W`, after `destroy_win W gone` the lookup of `W` returns null
and no record of the client list has window id `W`, so no handle cached for
`W` can be reached from the list. -/
theorem destroy_win_unregisters (s : State) (W : Window) (gone : Bool)
    (h : s.ids.count W ≤ 1) :
    get_client_from_window (destroy_win s W gone) W = none
    ∧ ∀ p ∈ (destroy_win s W gone).clients, ((destroy_win s W gone).heap p).window ≠ W := by
  have hn : W ∉ (destroy_win s W gone).ids := by
    rw [destroy_win_ids]
    exact eraseIdx_findIdx_not_mem _ W s.clients h
  refine ⟨lookup_none.2 hn, fun p hp e => hn ?_⟩
  unfold State.ids
  exact List.mem_map.2 ⟨p, hp, e⟩

/-- Window 2 of `demoTwo` destroyed. -/
theorem destroy_win_unregisters_witness :
    get_client_from_window (destroy_win demoTwo 2 true) 2 = none :=
  (destroy_win_unregisters demoTwo 2 true (by decide)).1

/-! ## `unmap_win`, `configure_client`, `damage_client` -/

theorem XFixesCreateRegion_single (r : XRectangle) : XFixesCreateRegion [r] = r.pixels := by
  simp [XFixesCreateRegion]

theorem toShort_of_fits (x : Int) (h1 : -32768 ≤ x) (h2 : x < 32768) : toShort x = x := by
  unfold toShort
  rw [Int.emod_eq_of_lt (by omega) (by omega)]
  omega

theorem toUShort_of_fits (w : Int) (h1 : 0 ≤ w) (h2 : w < 65536) : toUShort w = w := by
  unfold toUShort
  exact Int.emod_eq_of_lt h1 h2

/-- When the four values fit the fields of `XRectangle`, the rectangle
assigned from them covers the pixels `x ≤ px < x + w`, `y ≤ py < y + h`. -/
theorem assign_pixels_of_fits (x y w h : Int)
    (hx : -32768 ≤ x ∧ x < 32768) (hy : -32768 ≤ y ∧ y < 32768)
    (hw : 0 ≤ w ∧ w < 65536) (hh : 0 ≤ h ∧ h < 65536) (px py : Int) :
    (px, py) ∈ (XRectangle.assign x y w h).pixels
      ↔ x ≤ px ∧ px < x + w ∧ y ≤ py ∧ py < y + h := by
  unfold XRectangle.assign XRectangle.pixels
  simp only [toShort_of_fits x hx.1 hx.2, toShort_of_fits y hy.1 hy.2,
    toUShort_of_fits w hw.1 hw.2, toUShort_of_fits h hh.1 hh.2,
    Finset.mem_product, Finset.mem_Ico]
  tauto

theorem mem_translate (r : Region) (dx dy px py : Int) :
    (px, py) ∈ XFixesTranslateRegion r dx dy ↔ (px - dx, py - dy) ∈ r := by
  unfold XFixesTranslateRegion
  simp only [Finset.mem_image, Prod.mk.injEq, Prod.exists]
  constructor
  · rintro ⟨a, b, hab, rfl, rfl⟩
    simpa using hab
  · intro h
    exact ⟨px - dx, py - dy, h, by omega, by omega⟩

theorem restack_win_heap (s : State) (M T : Window) :
    (restack_win s M T).heap = s.heap ∧ (restack_win s M T).all_damage = s.all_damage
    ∧ (restack_win s M T).clip_changed = s.clip_changed := by
  unfold restack_win
  simp only
  split
  · exact ⟨rfl, rfl, rfl⟩
  · split
    · split
      · exact ⟨rfl, rfl, rfl⟩
      · exact ⟨rfl, rfl, rfl⟩
    · exact ⟨rfl, rfl, rfl⟩

theorem release_eq_zero (h : Nat) : (if h ≠ 0 then 0 else h) = 0 := by
  split <;> simp_all

theorem finish_unmap_client_record (s : State) (p : Ptr) :
    (finish_unmap_client s p).heap p
      = { s.heap p with
          damaged := 0
          extents := none
          pixmap := 0
          picture := 0
          border_size := none
          border_clip := none } := by
  unfold finish_unmap_client
  simp only [release_eq_zero]
  cases hE : (s.heap p).extents with
  | none => simp [hE]
  | some e => simp [hE, (add_damage_rest s e).2.1]

theorem finish_unmap_client_globals (s : State) (p : Ptr) :
    (finish_unmap_client s p).all_damage
        = (match (s.heap p).extents with
           | some e => some (s.all_damage.getD ∅ ∪ e)
           | none => s.all_damage)
    ∧ (finish_unmap_client s p).clients = s.clients
    ∧ (finish_unmap_client s p).clip_changed = true := by
  unfold finish_unmap_client
  cases hE : (s.heap p).extents with
  | none => simp [hE]
  | some e =>
    refine ⟨?_, ?_, ?_⟩
    · simp only [hE, add_damage_all_damage]
      cases s.all_damage <;> simp
    · simp [hE, (add_damage_rest s e).1]
    · simp

/-- What `unmap_win` does to the record of a registered window and to the
globals: `damaged` is 0; the pending damage is the previous pending damage
united with the extents the window had cached (unchanged if it had none); the
pixmap, picture, border_size, extents and border_clip handles are absent; the
alpha mask handle, which `finish_unmap_client` does not name, is the one the
window had before; the geometry and the client list are unchanged; and
`clip_changed` is true. -/
theorem unmap_win_record (s : State) (W : Window) (p : Ptr)
    (h : get_client_from_window s W = some p) :
    ((unmap_win s W).heap p).damaged = 0
    ∧ (unmap_win s W).all_damage
        = (match (s.heap p).extents with
           | some e => some (s.all_damage.getD ∅ ∪ e)
           | none => s.all_damage)
    ∧ ((unmap_win s W).heap p).pixmap = 0
    ∧ ((unmap_win s W).heap p).picture = 0
    ∧ ((unmap_win s W).heap p).border_size = none
    ∧ ((unmap_win s W).heap p).extents = none
    ∧ ((unmap_win s W).heap p).border_clip = none
    ∧ ((unmap_win s W).heap p).alpha_pict = (s.heap p).alpha_pict
    ∧ ((unmap_win s W).heap p).attr.x = (s.heap p).attr.x
    ∧ ((unmap_win s W).heap p).attr.y = (s.heap p).attr.y
    ∧ ((unmap_win s W).heap p).attr.width = (s.heap p).attr.width
    ∧ ((unmap_win s W).heap p).attr.height = (s.heap p).attr.height
    ∧ ((unmap_win s W).heap p).attr.border_width = (s.heap p).attr.border_width
    ∧ (unmap_win s W).clients = s.clients
    ∧ (unmap_win s W).clip_changed = true := by
  have e : unmap_win s W = finish_unmap_client
      { s with heap := Function.update s.heap p (with_map_state (s.heap p) IsUnmapped) } p := by
    simp only [unmap_win, h]
  rw [e, finish_unmap_client_record]
  obtain ⟨g1, g2, g3⟩ := finish_unmap_client_globals
    { s with heap := Function.update s.heap p (with_map_state (s.heap p) IsUnmapped) } p
  refine ⟨rfl, ?_, rfl, rfl, rfl, rfl, rfl, ?_, ?_, ?_, ?_, ?_, ?_, g2, g3⟩
  · rw [g1]; simp only [Function.update_same, with_map_state]
  all_goals simp only [Function.update_same, with_map_state]

theorem client_extents_eq (client : Client) :
    client_extents client
      = (XRectangle.assign client.attr.x client.attr.y
          (client.attr.width + client.attr.border_width * 2)
          (client.attr.height + client.attr.border_width * 2)).pixels := by
  unfold client_extents
  exact XFixesCreateRegion_single _

/-- C9: for every registered window and every configure event for it, after
`configure_client` the record holds the x, y, width, height and border width
of the event; the pending damage is the previous pending damage united with
the extents the window had cached (if any) and with the rectangle assigned
from (new x, new y, new width + 2 * border, new height + 2 * border); and
`clip_changed` is true.  When these four values fit the 16-bit fields of
`XRectangle`, that rectangle covers exactly the pixels from (x, y) up to
(x + width + 2 * border, y + height + 2 * border). -/
theorem configure_client_effect (s : State) (ce : XConfigureEvent) (p : Ptr)
    (h : get_client_from_window s ce.window = some p) :
    ((configure_client s ce).heap p).attr.x = ce.x
    ∧ ((configure_client s ce).heap p).attr.y = ce.y
    ∧ ((configure_client s ce).heap p).attr.width = ce.width
    ∧ ((configure_client s ce).heap p).attr.height = ce.height
    ∧ ((configure_client s ce).heap p).attr.border_width = ce.border_width
    ∧ (configure_client s ce).all_damage
        = some (s.all_damage.getD ∅ ∪ ((s.heap p).extents.getD ∅ ∪
            (XRectangle.assign ce.x ce.y (ce.width + ce.border_width * 2)
              (ce.height + ce.border_width * 2)).pixels))
    ∧ (configure_client s ce).clip_changed = true
    ∧ (-32768 ≤ ce.x ∧ ce.x < 32768 → -32768 ≤ ce.y ∧ ce.y < 32768 →
        0 ≤ ce.width + ce.border_width * 2 ∧ ce.width + ce.border_width * 2 < 65536 →
        0 ≤ ce.height + ce.border_width * 2 ∧ ce.height + ce.border_width * 2 < 65536 →
        ∀ px py : Int,
          (px, py) ∈ (XRectangle.assign ce.x ce.y (ce.width + ce.border_width * 2)
              (ce.height + ce.border_width * 2)).pixels
            ↔ ce.x ≤ px ∧ px < ce.x + (ce.width + ce.border_width * 2)
              ∧ ce.y ≤ py ∧ py < ce.y + (ce.height + ce.border_width * 2)) := by
  have hh := restack_win_heap
    { s with heap := Function.update s.heap p (configure_geometry (s.heap p) ce) }
    ce.window ce.above
  have hrec : (restack_win
      { s with heap := Function.update s.heap p (configure_geometry (s.heap p) ce) }
      ce.window ce.above).heap p = configure_geometry (s.heap p) ce := by
    rw [hh.1]; simp only [Function.update_same]
  have hdam : (match (s.heap p).extents with
      | some extents => extents
      | none => (∅ : Region)) = (s.heap p).extents.getD ∅ := by
    cases (s.heap p).extents <;> rfl
  have hrec3 : ∀ D, (add_damage (restack_win
      { s with heap := Function.update s.heap p (configure_geometry (s.heap p) ce) }
      ce.window ce.above) D).heap p = configure_geometry (s.heap p) ce := by
    intro D
    rw [(add_damage_rest _ D).2.1, hrec]
  unfold configure_client
  simp only [h, Function.update_same, hrec3, hrec, hdam, client_extents_eq]
  refine ⟨rfl, rfl, rfl, rfl, rfl, ?_, ?_⟩
  · rw [add_damage_all_damage, hh.2.1]
    cases s.all_damage <;> cases (s.heap p).extents <;> simp [configure_geometry]
  · exact ⟨trivial, fun hx hy hw hh2 px py => assign_pixels_of_fits _ _ _ _ hx hy hw hh2 px py⟩

/-- The window of `demoMasked` moved to (3, 4) with size 20x10 and border 1. -/
theorem configure_client_effect_witness :
    ((configure_client demoMasked
      { window := 1, x := 3, y := 4, width := 20, height := 10, border_width := 1,
        above := 0, override_redirect := false }).heap 0).attr.width = 20 :=
  (configure_client_effect demoMasked
    { window := 1, x := 3, y := 4, width := 20, height := 10, border_width := 1,
      above := 0, override_redirect := false } 0 (by decide)).2.2.1

/-- C10: for every registered window, `damage_client` makes one `add_damage`
call and sets `damaged` to 1.  The region added is, if the window had
`damaged = 0`, the rectangle assigned from (x, y, width + 2 * border,
height + 2 * border) of its current geometry, and otherwise the region
reported for the window translated by (x + border_width, y + border_width):
a pixel is in it exactly when the pixel that far up and left is in the
reported region. -/
theorem damage_client_effect (X : XServer) (s : State) (de : XDamageNotifyEvent) (p : Ptr)
    (h : get_client_from_window s de.drawable = some p) :
    ((damage_client X s de).heap p).damaged = 1
    ∧ damage_client X s de
        = { add_damage s
              (if (s.heap p).damaged = 0 then
                (XRectangle.assign (s.heap p).attr.x (s.heap p).attr.y
                  ((s.heap p).attr.width + (s.heap p).attr.border_width * 2)
                  ((s.heap p).attr.height + (s.heap p).attr.border_width * 2)).pixels
               else XFixesTranslateRegion (X.damageSubtract (s.heap p).damage)
                  ((s.heap p).attr.x + (s.heap p).attr.border_width)
                  ((s.heap p).attr.y + (s.heap p).attr.border_width)) with
            heap := Function.update s.heap p { s.heap p with damaged := 1 } }
    ∧ (damage_client X s de).all_damage
        = some (s.all_damage.getD ∅ ∪
            (if (s.heap p).damaged = 0 then
              (XRectangle.assign (s.heap p).attr.x (s.heap p).attr.y
                ((s.heap p).attr.width + (s.heap p).attr.border_width * 2)
                ((s.heap p).attr.height + (s.heap p).attr.border_width * 2)).pixels
             else XFixesTranslateRegion (X.damageSubtract (s.heap p).damage)
                ((s.heap p).attr.x + (s.heap p).attr.border_width)
                ((s.heap p).attr.y + (s.heap p).attr.border_width)))
    ∧ (∀ px py : Int,
        (px, py) ∈ XFixesTranslateRegion (X.damageSubtract (s.heap p).damage)
            ((s.heap p).attr.x + (s.heap p).attr.border_width)
            ((s.heap p).attr.y + (s.heap p).attr.border_width)
          ↔ (px - ((s.heap p).attr.x + (s.heap p).attr.border_width),
             py - ((s.heap p).attr.y + (s.heap p).attr.border_width))
              ∈ X.damageSubtract (s.heap p).damage) := by
  have e : damage_client X s de
        = { add_damage s
              (if (s.heap p).damaged = 0 then
                (XRectangle.assign (s.heap p).attr.x (s.heap p).attr.y
                  ((s.heap p).attr.width + (s.heap p).attr.border_width * 2)
                  ((s.heap p).attr.height + (s.heap p).attr.border_width * 2)).pixels
               else XFixesTranslateRegion (X.damageSubtract (s.heap p).damage)
                  ((s.heap p).attr.x + (s.heap p).attr.border_width)
                  ((s.heap p).attr.y + (s.heap p).attr.border_width)) with
            heap := Function.update s.heap p { s.heap p with damaged := 1 } } := by
    simp only [damage_client, h, client_extents_eq, (add_damage_rest _ _).2.1]
  refine ⟨?_, e, ?_, fun px py => mem_translate _ _ _ _ _⟩
  · rw [e]; simp only [Function.update_same]
  · rw [e]
    simp only [add_damage_all_damage]
    cases s.all_damage <;> simp

/-- A damage report for the window of `demoMasked`. -/
theorem damage_client_effect_witness :
    ((damage_client demoServer demoMasked { drawable := 1 }).heap 0).damaged = 1 :=
  (damage_client_effect demoServer demoMasked { drawable := 1 } 0 (by decide)).1

/-! ## The paint pass -/

theorem foldl_invariant_mem {α β : Type} (P : α → Prop) (f : α → β → α) :
    ∀ (l : List β), (∀ a b, b ∈ l → P a → P (f a b)) → ∀ a, P a → P (l.foldl f a) := by
  intro l
  induction l with
  | nil => intro _ a h; exact h
  | cons b l ih =>
    intro hf a h
    exact ih (fun a c hc => hf a c (List.mem_cons_of_mem _ hc)) (f a b)
      (hf a b (List.mem_cons_self _ _) h)

theorem foldr_invariant_mem {α β : Type} (P : α → Prop) (f : β → α → α) :
    ∀ (l : List β), (∀ b a, b ∈ l → P a → P (f b a)) → ∀ a, P a → P (l.foldr f a) := by
  intro l
  induction l with
  | nil => intro _ a h; exact h
  | cons b l ih =>
    intro hf a h
    exact hf b _ (List.mem_cons_self _ _)
      (ih (fun c a hc => hf c a (List.mem_cons_of_mem _ hc)) a h)

theorem ensure_picture_fields (X : XServer) (w : Client) :
    (ensure_picture X w).opaqueness = w.opaqueness
    ∧ (ensure_picture X w).border_clip = w.border_clip
    ∧ (ensure_picture X w).border_size = w.border_size := by
  unfold ensure_picture
  split <;> exact ⟨rfl, rfl, rfl⟩

theorem drop_cached_fields (cc : Bool) (w : Client) :
    (drop_cached cc w).opaqueness = w.opaqueness
    ∧ (drop_cached cc w).border_clip = (if cc then none else w.border_clip) := by
  unfold drop_cached
  split <;> exact ⟨rfl, rfl⟩

theorem ensure_regions_fields (X : XServer) (w : Client) :
    (ensure_regions X w).opaqueness = w.opaqueness
    ∧ (ensure_regions X w).border_clip = w.border_clip
    ∧ ∃ bs, (ensure_regions X w).border_size = some bs := by
  unfold ensure_regions
  refine ⟨rfl, rfl, ?_⟩
  cases w.border_size with
  | none => exact ⟨_, rfl⟩
  | some r => exact ⟨r, rfl⟩

/-- The record the first loop works on, after the picture and the cached
regions are in place. -/
theorem prepared_fields (X : XServer) (cc : Bool) (w : Client) :
    (ensure_regions X (drop_cached cc (ensure_picture X w))).opaqueness = w.opaqueness
    ∧ (ensure_regions X (drop_cached cc (ensure_picture X w))).border_clip
        = (if cc then none else w.border_clip)
    ∧ ∃ bs, (ensure_regions X (drop_cached cc (ensure_picture X w))).border_size = some bs := by
  obtain ⟨a1, a2, a3⟩ := ensure_regions_fields X (drop_cached cc (ensure_picture X w))
  obtain ⟨b1, b2⟩ := drop_cached_fields cc (ensure_picture X w)
  obtain ⟨c1, c2, _⟩ := ensure_picture_fields X w
  exact ⟨a1.trans (b1.trans c1), by rw [a2, b2, c2], a3⟩

theorem subtract_region_subset (region : Region) (size : XserverRegion) :
    subtract_region region size ⊆ region := by
  unfold subtract_region
  cases size with
  | none => exact Finset.Subset.refl _
  | some b => exact Finset.sdiff_subset

theorem intersect_region_subset (bc : Region) (size : XserverRegion) :
    ∃ c, intersect_region (some bc) size = some c ∧ c ⊆ bc := by
  unfold intersect_region
  cases size with
  | none => exact ⟨bc, rfl, Finset.Subset.refl _⟩
  | some b => exact ⟨bc ∩ b, rfl, Finset.inter_subset_left⟩

/-- What one turn of the first loop does to the records of the other
clients, to `region`, and which requests it adds: composites of the client
it visits, clipped to `region` as it was on entry. -/
theorem paint_front_frame (X : XServer) (cc : Bool) (W H : Int) (rb : Picture)
    (acc : PaintAcc) (q : Ptr) :
    (∀ p, p ≠ q → (paint_front X cc W H rb acc q).heap p = acc.heap p)
    ∧ (paint_front X cc W H rb acc q).region ⊆ acc.region
    ∧ (∀ r ∈ (paint_front X cc W H rb acc q).reqs, r ∈ acc.reqs ∨
        ∀ b, r.drawsClient b = true → b = q ∧ r.clipOf = some acc.region) := by
  unfold paint_front
  simp only
  split
  · exact ⟨fun _ _ => rfl, Finset.Subset.refl _, fun r hr => Or.inl hr⟩
  · split
    · exact ⟨fun _ _ => rfl, Finset.Subset.refl _, fun r hr => Or.inl hr⟩
    · refine ⟨fun p hp => by simp only [Function.update_noteq hp], ?_, ?_⟩
      · simp only
        split
        · exact subtract_region_subset _ _
        · exact Finset.Subset.refl _
      · intro r hr
        simp only at hr
        split at hr
        · simp only [List.mem_append, List.mem_cons, List.mem_singleton, List.not_mem_nil,
            or_false] at hr
          rcases hr with hr | rfl | rfl
          · exact Or.inl hr
          · exact Or.inr (fun b hb => by simp [XReq.drawsClient] at hb)
          · refine Or.inr (fun b hb => ⟨?_, rfl⟩)
            simp only [XReq.drawsClient, decide_eq_true_eq, Option.some.injEq] at hb
            exact hb.symm
        · exact Or.inl hr

/-- A damaged, visible, solid client: the turn of the first loop caches its
border size and takes it out of `region`. -/
theorem paint_front_solid (X : XServer) (cc : Bool) (W H : Int) (rb : Picture)
    (acc : PaintAcc) (q : Ptr) (hd : (acc.heap q).damaged ≠ 0)
    (hv : invisible W H (acc.heap q) = false)
    (hs : (acc.heap q).opaqueness = Window_Opaqueness.SOLID) :
    ∃ bs, ((paint_front X cc W H rb acc q).heap q).border_size = some bs
      ∧ (paint_front X cc W H rb acc q).region = acc.region \ bs := by
  obtain ⟨h1, _, bs, h3⟩ := prepared_fields X cc (acc.heap q)
  refine ⟨bs, ?_, ?_⟩
  · unfold paint_front
    simp only [hd, hv, Bool.false_eq_true, ↓reduceIte, Function.update_same, h3]
  · unfold paint_front
    simp only [hd, hv, Bool.false_eq_true, ↓reduceIte, h1, hs, h3, decide_True,
      subtract_region]

/-- A damaged, visible client whose clip is rebuilt: the turn of the first
loop stores the `region` it leaves as the client's `border_clip`. -/
theorem paint_front_clip (X : XServer) (cc : Bool) (W H : Int) (rb : Picture)
    (acc : PaintAcc) (q : Ptr) (hd : (acc.heap q).damaged ≠ 0)
    (hv : invisible W H (acc.heap q) = false)
    (hc : cc = true ∨ (acc.heap q).border_clip = none) :
    ((paint_front X cc W H rb acc q).heap q).border_clip
      = some (paint_front X cc W H rb acc q).region := by
  obtain ⟨_, h2, _⟩ := prepared_fields X cc (acc.heap q)
  have h0 : (ensure_regions X (drop_cached cc (ensure_picture X (acc.heap q)))).border_clip
      = none := by
    rw [h2]
    rcases hc with h | h
    · simp [h]
    · simp [h]
  unfold paint_front
  simp only [hd, hv, Bool.false_eq_true, ↓reduceIte, Function.update_same, h0]

/-- What one turn of the second loop does to the records and which requests
it adds: composites of the client it visits, clipped to a part of that
client's `border_clip`. -/
theorem paint_back_frame (rb : Picture) (acc : PaintAcc) (q : Ptr) :
    (∀ p, p ≠ q → (paint_back rb acc q).heap p = acc.heap p)
    ∧ (∀ p, ((paint_back rb acc q).heap p).border_size = (acc.heap p).border_size)
    ∧ (∀ r ∈ (paint_back rb acc q).reqs, r ∈ acc.reqs ∨
        ∀ b, r.drawsClient b = true → b = q ∧
          ∀ bc, (acc.heap q).border_clip = some bc → ∃ c, r.clipOf = some c ∧ c ⊆ bc) := by
  unfold paint_back
  simp only
  refine ⟨fun p hp => by simp only [Function.update_noteq hp], fun p => ?_, ?_⟩
  · by_cases hp : p = q
    · subst hp; simp only [Function.update_same]
    · simp only [Function.update_noteq hp]
  · intro r hr
    split at hr
    · simp only [List.mem_append, List.mem_cons, List.mem_singleton, List.not_mem_nil,
        or_false] at hr
      rcases hr with (hr | rfl) | rfl | rfl
      · exact Or.inl hr
      · exact Or.inr (fun b hb => by simp [XReq.drawsClient] at hb)
      · exact Or.inr (fun b hb => by simp [XReq.drawsClient] at hb)
      · refine Or.inr (fun b hb => ⟨?_, fun bc hbc => ?_⟩)
        · simp only [XReq.drawsClient, decide_eq_true_eq, Option.some.injEq] at hb
          exact hb.symm
        · simp only [XReq.clipOf, hbc]
          exact intersect_region_subset bc _
    · simp only [List.mem_append, List.mem_singleton] at hr
      rcases hr with hr | rfl
      · exact Or.inl hr
      · exact Or.inr (fun b hb => by simp [XReq.drawsClient] at hb)

/-- Every composite of the client at `B` among the requests is clipped to a
region disjoint from `bs`. -/
theorem clipped_off_mono {B : Ptr} {bs : Region} {old new : List XReq}
    (hold : ∀ r ∈ old, r.drawsClient B = true → ∃ c, r.clipOf = some c ∧ Disjoint c bs)
    (hnew : ∀ r ∈ new, r ∈ old ∨ (r.drawsClient B = true → ∃ c, r.clipOf = some c ∧ Disjoint c bs)) :
    ∀ r ∈ new, r.drawsClient B = true → ∃ c, r.clipOf = some c ∧ Disjoint c bs := by
  intro r hr hb
  rcases hnew r hr with h | h
  · exact hold r h hb
  · exact h hb

/-- The first loop over clients other than `A` and `B`, before `A` is met:
the records of `A` and `B` are untouched and `B` has not been drawn. -/
theorem pass1_before (X : XServer) (cc : Bool) (W H : Int) (rb : Picture) (A B : Ptr)
    (l : List Ptr) (hA : A ∉ l) (hB : B ∉ l) (acc : PaintAcc)
    (hno : ∀ r ∈ acc.reqs, r.drawsClient B = false) :
    (l.foldl (paint_front X cc W H rb) acc).heap A = acc.heap A
    ∧ (l.foldl (paint_front X cc W H rb) acc).heap B = acc.heap B
    ∧ ∀ r ∈ (l.foldl (paint_front X cc W H rb) acc).reqs, r.drawsClient B = false := by
  refine foldl_invariant_mem
    (fun a : PaintAcc => a.heap A = acc.heap A ∧ a.heap B = acc.heap B
      ∧ ∀ r ∈ a.reqs, r.drawsClient B = false)
    (paint_front X cc W H rb) l ?_ acc ⟨rfl, rfl, hno⟩
  intro a q hq ⟨h1, h2, h3⟩
  obtain ⟨f1, _, f3⟩ := paint_front_frame X cc W H rb a q
  have hqA : A ≠ q := fun e => hA (e ▸ hq)
  have hqB : B ≠ q := fun e => hB (e ▸ hq)
  refine ⟨(f1 A hqA).trans h1, (f1 B hqB).trans h2, fun r hr => ?_⟩
  rcases f3 r hr with h | h
  · exact h3 r h
  · by_contra hc
    exact hqB (h B (by simpa using hc)).1

/-- The first loop over clients other than `A` and `B`, once `A` has been
taken out of `region`. -/
theorem pass1_between (X : XServer) (cc : Bool) (W H : Int) (rb : Picture) (A B : Ptr)
    (bs : Region) (l : List Ptr) (hA : A ∉ l) (hB : B ∉ l) (acc : PaintAcc)
    (h1 : (acc.heap A).border_size = some bs) (h2 : Disjoint acc.region bs)
    (h3 : ∀ r ∈ acc.reqs, r.drawsClient B = true → ∃ c, r.clipOf = some c ∧ Disjoint c bs) :
    ((l.foldl (paint_front X cc W H rb) acc).heap A).border_size = some bs
    ∧ Disjoint (l.foldl (paint_front X cc W H rb) acc).region bs
    ∧ (l.foldl (paint_front X cc W H rb) acc).heap B = acc.heap B
    ∧ ∀ r ∈ (l.foldl (paint_front X cc W H rb) acc).reqs,
        r.drawsClient B = true → ∃ c, r.clipOf = some c ∧ Disjoint c bs := by
  refine foldl_invariant_mem
    (fun a : PaintAcc => (a.heap A).border_size = some bs ∧ Disjoint a.region bs
      ∧ a.heap B = acc.heap B
      ∧ ∀ r ∈ a.reqs, r.drawsClient B = true → ∃ c, r.clipOf = some c ∧ Disjoint c bs)
    (paint_front X cc W H rb) l ?_ acc ⟨h1, h2, rfl, h3⟩
  intro a q hq ⟨g1, g2, g3, g4⟩
  obtain ⟨f1, f2, f3⟩ := paint_front_frame X cc W H rb a q
  have hqA : A ≠ q := fun e => hA (e ▸ hq)
  have hqB : B ≠ q := fun e => hB (e ▸ hq)
  refine ⟨by rw [f1 A hqA]; exact g1, Finset.disjoint_of_subset_left f2 g2,
    (f1 B hqB).trans g3, clipped_off_mono g4 (fun r hr => ?_)⟩
  rcases f3 r hr with h | h
  · exact Or.inl h
  · exact Or.inr (fun hb => absurd (h B hb).1 hqB)

/-- The first loop over clients other than `A` and `B`, once `B` holds its
clip. -/
theorem pass1_after (X : XServer) (cc : Bool) (W H : Int) (rb : Picture) (A B : Ptr)
    (bs : Region) (l : List Ptr) (hA : A ∉ l) (hB : B ∉ l) (acc : PaintAcc)
    (h1 : (acc.heap A).border_size = some bs)
    (h2 : ∃ bc, (acc.heap B).border_clip = some bc ∧ Disjoint bc bs)
    (h3 : ∀ r ∈ acc.reqs, r.drawsClient B = true → ∃ c, r.clipOf = some c ∧ Disjoint c bs) :
    ((l.foldl (paint_front X cc W H rb) acc).heap A).border_size = some bs
    ∧ (∃ bc, ((l.foldl (paint_front X cc W H rb) acc).heap B).border_clip = some bc
        ∧ Disjoint bc bs)
    ∧ ∀ r ∈ (l.foldl (paint_front X cc W H rb) acc).reqs,
        r.drawsClient B = true → ∃ c, r.clipOf = some c ∧ Disjoint c bs := by
  refine foldl_invariant_mem
    (fun a : PaintAcc => (a.heap A).border_size = some bs
      ∧ (∃ bc, (a.heap B).border_clip = some bc ∧ Disjoint bc bs)
      ∧ ∀ r ∈ a.reqs, r.drawsClient B = true → ∃ c, r.clipOf = some c ∧ Disjoint c bs)
    (paint_front X cc W H rb) l ?_ acc ⟨h1, h2, h3⟩
  intro a q hq ⟨g1, g2, g4⟩
  obtain ⟨f1, _, f3⟩ := paint_front_frame X cc W H rb a q
  have hqA : A ≠ q := fun e => hA (e ▸ hq)
  have hqB : B ≠ q := fun e => hB (e ▸ hq)
  refine ⟨by rw [f1 A hqA]; exact g1, by rw [f1 B hqB]; exact g2,
    clipped_off_mono g4 (fun r hr => ?_)⟩
  rcases f3 r hr with h | h
  · exact Or.inl h
  · exact Or.inr (fun hb => absurd (h B hb).1 hqB)

/-- The second loop over clients other than `A` and `B`, before it reaches
`B`. -/
theorem pass2_before (rb : Picture) (A B : Ptr) (bs : Region) (l : List Ptr)
    (hB : B ∉ l) (acc : PaintAcc)
    (h1 : (acc.heap A).border_size = some bs)
    (h2 : ∃ bc, (acc.heap B).border_clip = some bc ∧ Disjoint bc bs)
    (h3 : ∀ r ∈ acc.reqs, r.drawsClient B = true → ∃ c, r.clipOf = some c ∧ Disjoint c bs) :
    ((l.foldr (fun p a => paint_back rb a p) acc).heap A).border_size = some bs
    ∧ (∃ bc, ((l.foldr (fun p a => paint_back rb a p) acc).heap B).border_clip = some bc
        ∧ Disjoint bc bs)
    ∧ ∀ r ∈ (l.foldr (fun p a => paint_back rb a p) acc).reqs,
        r.drawsClient B = true → ∃ c, r.clipOf = some c ∧ Disjoint c bs := by
  refine foldr_invariant_mem
    (fun a : PaintAcc => (a.heap A).border_size = some bs
      ∧ (∃ bc, (a.heap B).border_clip = some bc ∧ Disjoint bc bs)
      ∧ ∀ r ∈ a.reqs, r.drawsClient B = true → ∃ c, r.clipOf = some c ∧ Disjoint c bs)
    (fun p a => paint_back rb a p) l ?_ acc ⟨h1, h2, h3⟩
  intro q a hq ⟨g1, g2, g4⟩
  obtain ⟨f1, f2, f3⟩ := paint_back_frame rb a q
  have hqB : B ≠ q := fun e => hB (e ▸ hq)
  refine ⟨by rw [f2 A]; exact g1, by rw [f1 B hqB]; exact g2,
    clipped_off_mono g4 (fun r hr => ?_)⟩
  rcases f3 r hr with h | h
  · exact Or.inl h
  · exact Or.inr (fun hb => absurd (h B hb).1 hqB)

/-- The second loop over clients other than `B`, after it has passed `B`. -/
theorem pass2_after (rb : Picture) (A B : Ptr) (bs : Region) (l : List Ptr)
    (hB : B ∉ l) (acc : PaintAcc)
    (h1 : (acc.heap A).border_size = some bs)
    (h3 : ∀ r ∈ acc.reqs, r.drawsClient B = true → ∃ c, r.clipOf = some c ∧ Disjoint c bs) :
    ((l.foldr (fun p a => paint_back rb a p) acc).heap A).border_size = some bs
    ∧ ∀ r ∈ (l.foldr (fun p a => paint_back rb a p) acc).reqs,
        r.drawsClient B = true → ∃ c, r.clipOf = some c ∧ Disjoint c bs := by
  refine foldr_invariant_mem
    (fun a : PaintAcc => (a.heap A).border_size = some bs
      ∧ ∀ r ∈ a.reqs, r.drawsClient B = true → ∃ c, r.clipOf = some c ∧ Disjoint c bs)
    (fun p a => paint_back rb a p) l ?_ acc ⟨h1, h3⟩
  intro q a hq ⟨g1, g4⟩
  obtain ⟨_, f2, f3⟩ := paint_back_frame rb a q
  have hqB : B ≠ q := fun e => hB (e ▸ hq)
  refine ⟨by rw [f2 A]; exact g1, clipped_off_mono g4 (fun r hr => ?_)⟩
  rcases f3 r hr with h | h
  · exact Or.inl h
  · exact Or.inr (fun hb => absurd (h B hb).1 hqB)

theorem nodup_two (A B : Ptr) (pre mid post : List Ptr)
    (h : (pre ++ A :: (mid ++ B :: post)).Nodup) :
    A ∉ pre ∧ B ∉ pre ∧ A ∉ mid ∧ B ∉ mid ∧ A ∉ post ∧ B ∉ post ∧ A ≠ B := by
  simp only [List.nodup_append, List.nodup_cons, List.mem_append, List.mem_cons, not_or,
    List.disjoint_left] at h
  obtain ⟨_, ⟨⟨hAm, hAB, hAp⟩, _, ⟨hBp, _⟩, h3⟩, h4⟩ := h
  refine ⟨fun hA => (h4 hA).1 rfl, fun hB => (h4 hB).2.2.1 rfl,
    hAm, fun hB => (h3 hB).1 rfl, hAp, hBp, hAB⟩

/-- The paint pass on a list without repeated addresses: if `A` is listed
before `B`, both are damaged and visible, `A` is solid, and the clip of `B`
is rebuilt in this pass, then every composite of `B` is clipped to a region
disjoint from the border size the pass leaves cached for `A`. -/
theorem paint_all_occludes_of (X : XServer) (s : State) (region : XserverRegion)
    (A B : Ptr) (pre mid post : List Ptr)
    (hl : s.clients = pre ++ A :: (mid ++ B :: post)) (hnd : s.clients.Nodup)
    (hAd : (s.heap A).damaged ≠ 0)
    (hAv : invisible s.root_width s.root_height (s.heap A) = false)
    (hAs : (s.heap A).opaqueness = Window_Opaqueness.SOLID)
    (hBd : (s.heap B).damaged ≠ 0)
    (hBv : invisible s.root_width s.root_height (s.heap B) = false)
    (hBc : s.clip_changed = true ∨ (s.heap B).border_clip = none) :
    ∃ bs, ((paint_all X s region).1.heap A).border_size = some bs
      ∧ ∀ r ∈ (paint_all X s region).2, r.drawsClient B = true →
          ∃ c, r.clipOf = some c ∧ Disjoint c bs := by
  rw [hl] at hnd
  obtain ⟨nApre, nBpre, nAmid, nBmid, nApost, nBpost, hAB⟩ := nodup_two A B pre mid post hnd
  -- first loop, up to A
  obtain ⟨a1, a2, a3⟩ := pass1_before X s.clip_changed s.root_width s.root_height
    (paint_buffer X s) A B pre nApre nBpre
    { heap := s.heap
      region := paint_target s region
      reqs := [XReq.setClip s.root_picture (some (paint_target s region))] }
    (fun r hr => by
      simp only [List.mem_singleton] at hr
      subst hr
      rfl)
  simp only at a1 a2
  -- A
  obtain ⟨bs, b1, b2⟩ := paint_front_solid X s.clip_changed s.root_width s.root_height
    (paint_buffer X s) _ A (by rw [a1]; exact hAd) (by rw [a1]; exact hAv)
    (by rw [a1]; exact hAs)
  obtain ⟨fA1, _, fA3⟩ := paint_front_frame X s.clip_changed s.root_width s.root_height
    (paint_buffer X s)
    (pre.foldl (paint_front X s.clip_changed s.root_width s.root_height (paint_buffer X s))
      { heap := s.heap
        region := paint_target s region
        reqs := [XReq.setClip s.root_picture (some (paint_target s region))] }) A
  -- first loop, between A and B
  obtain ⟨c1, c2, c3, c4⟩ := pass1_between X s.clip_changed s.root_width s.root_height
    (paint_buffer X s) A B bs mid nAmid nBmid _ b1
    (by rw [b2]; exact Finset.sdiff_disjoint)
    (fun r hr hb => by
      rcases fA3 r hr with h | h
      · rw [a3 r h] at hb; cases hb
      · exact absurd (h B hb).1 (Ne.symm hAB))
  have c3' := c3.trans ((fA1 B (Ne.symm hAB)).trans a2)
  -- B
  obtain ⟨fB1, fB2, fB3⟩ := paint_front_frame X s.clip_changed s.root_width s.root_height
    (paint_buffer X s)
    (mid.foldl (paint_front X s.clip_changed s.root_width s.root_height (paint_buffer X s))
      (paint_front X s.clip_changed s.root_width s.root_height (paint_buffer X s)
        (pre.foldl
          (paint_front X s.clip_changed s.root_width s.root_height (paint_buffer X s))
          { heap := s.heap
            region := paint_target s region
            reqs := [XReq.setClip s.root_picture (some (paint_target s region))] }) A)) B
  have d2 := paint_front_clip X s.clip_changed s.root_width s.root_height
    (paint_buffer X s) _ B (by rw [c3']; exact hBd) (by rw [c3']; exact hBv)
    (by rw [c3']; exact hBc)
  -- first loop, after B
  obtain ⟨e1, e2, e3⟩ := pass1_after X s.clip_changed s.root_width s.root_height
    (paint_buffer X s) A B bs post nApost nBpost _
    (by rw [fB1 A hAB]; exact c1)
    ⟨_, d2, Finset.disjoint_of_subset_left fB2 c2⟩
    (clipped_off_mono c4 (fun r hr => by
      rcases fB3 r hr with h | h
      · exact Or.inl h
      · exact Or.inr (fun hb => ⟨_, (h B hb).2, c2⟩)))
  have hp1 : paint_pass1 X s region
      = post.foldl (paint_front X s.clip_changed s.root_width s.root_height (paint_buffer X s))
        (paint_front X s.clip_changed s.root_width s.root_height (paint_buffer X s)
          (mid.foldl
            (paint_front X s.clip_changed s.root_width s.root_height (paint_buffer X s))
            (paint_front X s.clip_changed s.root_width s.root_height (paint_buffer X s)
              (pre.foldl
                (paint_front X s.clip_changed s.root_width s.root_height (paint_buffer X s))
                { heap := s.heap
                  region := paint_target s region
                  reqs := [XReq.setClip s.root_picture (some (paint_target s region))] })
              A)) B) := by
    unfold paint_pass1
    rw [hl]
    simp only [List.foldl_append, List.foldl_cons]
  rw [← hp1] at e1 e2 e3
  -- paint_root
  have g3 : ∀ r ∈ (paint_root X s (paint_pass1 X s region)).reqs,
      r.drawsClient B = true → ∃ c, r.clipOf = some c ∧ Disjoint c bs :=
    clipped_off_mono e3 (fun r hr => by
      simp only [paint_root, List.mem_append, List.mem_cons, List.mem_singleton,
        List.not_mem_nil, or_false] at hr
      rcases hr with hr | rfl | rfl
      · exact Or.inl hr
      · exact Or.inr (fun hb => by simp [XReq.drawsClient] at hb)
      · exact Or.inr (fun hb => by simp [XReq.drawsClient] at hb))
  -- second loop, up to B
  obtain ⟨k1, ⟨bc, k2, k2'⟩, k3⟩ := pass2_before (paint_buffer X s) A B bs post nBpost
    (paint_root X s (paint_pass1 X s region)) e1 e2 g3
  -- B
  obtain ⟨_, m2, m3⟩ := paint_back_frame (paint_buffer X s)
    (post.foldr (fun p a => paint_back (paint_buffer X s) a p)
      (paint_root X s (paint_pass1 X s region))) B
  -- second loop, after B
  obtain ⟨n1, n3⟩ := pass2_after (paint_buffer X s) A B bs mid nBmid _
    (by rw [m2 A]; exact k1)
    (clipped_off_mono k3 (fun r hr => by
      rcases m3 r hr with h | h
      · exact Or.inl h
      · refine Or.inr (fun hb => ?_)
        obtain ⟨c, hc1, hc2⟩ := (h B hb).2 bc k2
        exact ⟨c, hc1, Finset.disjoint_of_subset_left hc2 k2'⟩))
  obtain ⟨_, q2, q3⟩ := paint_back_frame (paint_buffer X s)
    (mid.foldr (fun p a => paint_back (paint_buffer X s) a p)
      (paint_back (paint_buffer X s)
        (post.foldr (fun p a => paint_back (paint_buffer X s) a p)
          (paint_root X s (paint_pass1 X s region))) B)) A
  obtain ⟨t1, t3⟩ := pass2_after (paint_buffer X s) A B bs pre nBpre _
    (by rw [q2 A]; exact n1)
    (clipped_off_mono n3 (fun r hr => by
      rcases q3 r hr with h | h
      · exact Or.inl h
      · exact Or.inr (fun hb => absurd (h B hb).1 (Ne.symm hAB))))
  have hp2 : paint_pass2 X s region
      = pre.foldr (fun p a => paint_back (paint_buffer X s) a p)
        (paint_back (paint_buffer X s)
          (mid.foldr (fun p a => paint_back (paint_buffer X s) a p)
            (paint_back (paint_buffer X s)
              (post.foldr (fun p a => paint_back (paint_buffer X s) a p)
                (paint_root X s (paint_pass1 X s region))) B)) A) := by
    unfold paint_pass2
    rw [hl]
    simp only [List.foldr_append, List.foldr_cons]
  rw [← hp2] at t1 t3
  refine ⟨bs, t1, ?_⟩
  unfold paint_all
  simp only
  split
  · exact clipped_off_mono t3 (fun r hr => by
      simp only [List.mem_append, List.mem_cons, List.mem_singleton, List.not_mem_nil,
        or_false] at hr
      rcases hr with hr | rfl | rfl
      · exact Or.inl hr
      · exact Or.inr (fun hb => by simp [XReq.drawsClient] at hb)
      · exact Or.inr (fun hb => by simp [XReq.drawsClient] at hb))
  · exact t3

/-! ## States in which a paint pass starts -/

theorem Settles.same (s : State) : Settles s s :=
  ⟨List.Subperm.refl _, rfl, fun h => h⟩

theorem Settles.chain {s t u : State} (h1 : Settles s t) (h2 : Settles t u) : Settles s u :=
  ⟨h2.1.trans h1.1, h2.2.1.trans h1.2.1, fun h => h2.2.2 (h1.2.2 h)⟩

theorem Settles.ready {s t : State} (h : Settles s t) (hs : PaintReady s) : PaintReady t := by
  obtain ⟨l, hl1, hl2⟩ := h.1
  refine ⟨hl1.nodup_iff.1 (hs.1.sublist hl2), fun p hp => ?_, h.2.2 hs.2.2⟩
  rw [h.2.1]
  exact hs.2.1 p (h.1.subset hp)

/-- Overwriting a record by one that is idle if the old one was. -/
theorem settles_update (s t : State) (p : Ptr) (c : Client) (hc : t.clients = s.clients)
    (hn : t.next = s.next) (hh : t.heap = Function.update s.heap p c)
    (hb : Idle (s.heap p) → Idle c) : Settles s t := by
  refine ⟨by rw [hc], hn, fun h q => ?_⟩
  rw [hh]
  by_cases hq : q = p
  · subst hq; simp only [Function.update_same]; exact hb (h q)
  · simp only [Function.update_noteq hq]; exact h q

/-- A change of the globals that leaves the client list, the allocation
counter and the records alone. -/
theorem settles_globals (s t : State) (hc : t.clients = s.clients)
    (hn : t.next = s.next) (hh : t.heap = s.heap) : Settles s t :=
  ⟨by rw [hc], hn, fun h q => by rw [hh]; exact h q⟩

theorem settles_add_damage (s : State) (damage : Region) : Settles s (add_damage s damage) :=
  settles_globals _ _ (add_damage_rest s damage).1 (add_damage_rest s damage).2.2.1
    (add_damage_rest s damage).2.1

theorem settles_finish_unmap_client (s : State) (p : Ptr) :
    Settles s (finish_unmap_client s p) := by
  have hk := keeps_finish_unmap_client s p
  refine ⟨by rw [hk.1], hk.2.1, fun h q => ?_⟩
  by_cases hq : q = p
  · subst hq; rw [finish_unmap_client_record]; exact ⟨rfl, (h q).2⟩
  · have e : (finish_unmap_client s p).heap q = s.heap q := by
      unfold finish_unmap_client
      cases hE : (s.heap p).extents with
      | none => simp [hE, Function.update_noteq hq]
      | some e => simp [hE, Function.update_noteq hq, (add_damage_rest s e).2.1]
    rw [e]; exact h q

theorem settles_unmap_win (s : State) (window : Window) : Settles s (unmap_win s window) := by
  unfold unmap_win
  cases h : get_client_from_window s window with
  | none => exact Settles.same s
  | some p =>
    simp only
    refine Settles.chain ?_ (settles_finish_unmap_client _ p)
    exact settles_update _ _ p _ rfl rfl rfl (fun hb => hb)

theorem settles_determine_opaqueness (X : XServer) (s : State) (p : Ptr) :
    Settles s (determine_opaqueness X s p) := by
  unfold determine_opaqueness
  simp only
  cases h : (s.heap p).extents with
  | none => exact settles_update _ _ p _ rfl rfl rfl (fun hb => ⟨hb.1, release_eq_zero _⟩)
  | some e =>
    refine Settles.chain ?_ (settles_add_damage _ e)
    exact settles_update _ _ p _ rfl rfl rfl (fun hb => ⟨hb.1, release_eq_zero _⟩)

theorem settles_map_win (X : XServer) (s : State) (window : Window) :
    Settles s (map_win X s window) := by
  unfold map_win
  cases h : get_client_from_window s window with
  | none => exact Settles.same s
  | some p =>
    simp only
    have h1 : Settles s
        { s with heap := Function.update s.heap p (with_map_state (s.heap p) IsViewable) } :=
      settles_update _ _ p _ rfl rfl rfl (fun hb => hb)
    have h2 := settles_determine_opaqueness X
      { s with heap := Function.update s.heap p (with_map_state (s.heap p) IsViewable) } p
    refine Settles.chain (h1.chain h2) ?_
    exact settles_update _ _ p _ rfl rfl rfl (fun hb => hb)

theorem settles_restack_win (s : State) (M T : Window) (hM : M ∈ s.ids) :
    Settles s (restack_win s M T) := by
  obtain ⟨L, h1, h2⟩ := restack_win_eq s M T hM
  rw [h1]
  refine ⟨?_, rfl, fun h => h⟩
  rcases h2 with h | h
  · exact h.subperm
  · exact h.subperm

theorem settles_configure_client (s : State) (ce : XConfigureEvent) :
    Settles s (configure_client s ce) := by
  unfold configure_client
  cases h : get_client_from_window s ce.window with
  | none =>
    simp only
    split
    · exact settles_globals _ _ rfl rfl rfl
    · exact Settles.same s
  | some p =>
    simp only
    have hk := keeps_update s p (configure_geometry (s.heap p) ce) rfl
    have h1 : Settles s
        { s with heap := Function.update s.heap p (configure_geometry (s.heap p) ce) } :=
      settles_update _ _ p _ rfl rfl rfl (fun hb => hb)
    have h2 := settles_restack_win
      { s with heap := Function.update s.heap p (configure_geometry (s.heap p) ce) }
      ce.window ce.above (by rw [hk.ids]; exact lookup_mem_ids h)
    have h3 := (h1.chain h2).chain (settles_add_damage _ ((match (s.heap p).extents with
      | some extents => extents
      | none => ∅) ∪ client_extents ((restack_win
        { s with heap := Function.update s.heap p (configure_geometry (s.heap p) ce) }
        ce.window ce.above).heap p)))
    refine Settles.chain h3 ?_
    exact settles_update _ _ p (configure_shape_bounds _) rfl rfl rfl (fun hb => hb)

theorem settles_circulate_client (s : State) (ce : XCirculateEvent) (uninit : Window) :
    Settles s (circulate_client s ce uninit) := by
  unfold circulate_client
  cases h : get_client_from_window s ce.window with
  | none => exact Settles.same s
  | some p =>
    simp only
    have hM : (s.heap p).window ∈ s.ids := by
      rw [(lookup_some h).2]; exact lookup_mem_ids h
    refine Settles.chain (settles_restack_win s _
      (if ce.place = PlaceOnTop then (s.heap (s.clients.headD p)).window
       else if ce.place = PlaceOnBottom then 0 else uninit) hM) ?_
    exact settles_globals _ _ rfl rfl rfl

theorem settles_destroy_win (s : State) (window : Window) (gone : Bool) :
    Settles s (destroy_win s window gone) := by
  unfold destroy_win
  simp only
  cases h : get_client_from_window s window with
  | none =>
    simp only
    exact ⟨(List.eraseIdx_sublist _ _).subperm, rfl, fun hb => hb⟩
  | some p =>
    simp only
    have h0 : Settles s (if gone = true then finish_unmap_client s p else s) := by
      split
      · exact settles_finish_unmap_client s p
      · exact Settles.same s
    have h1 : Settles (if gone = true then finish_unmap_client s p else s)
        { (if gone = true then finish_unmap_client s p else s) with
          heap := Function.update (if gone = true then finish_unmap_client s p else s).heap p
            (destroy_release ((if gone = true then finish_unmap_client s p else s).heap p)) } :=
      settles_update _ _ p _ rfl rfl rfl (fun hb => ⟨hb.1, release_eq_zero _⟩)
    refine Settles.chain (h0.chain h1) ?_
    exact ⟨(List.eraseIdx_sublist _ _).subperm, rfl, fun hb => hb⟩

theorem settles_damage_client (X : XServer) (s : State) (de : XDamageNotifyEvent) :
    Settles s (damage_client X s de) := by
  unfold damage_client
  cases h : get_client_from_window s de.drawable with
  | none => exact Settles.same s
  | some p =>
    simp only
    refine Settles.chain (settles_add_damage s
      (if (s.heap p).damaged = 0 then client_extents (s.heap p)
       else XFixesTranslateRegion (X.damageSubtract (s.heap p).damage)
        ((s.heap p).attr.x + (s.heap p).attr.border_width)
        ((s.heap p).attr.y + (s.heap p).attr.border_width))) ?_
    exact settles_update _ _ p _ rfl rfl rfl (fun hb => hb)

/-- The first loop touches only records of listed clients. -/
theorem pass1_heap_unlisted (X : XServer) (cc : Bool) (W H : Int) (rb : Picture) (q : Ptr)
    (l : List Ptr) (hq : q ∉ l) (acc : PaintAcc) :
    (l.foldl (paint_front X cc W H rb) acc).heap q = acc.heap q :=
  foldl_invariant_mem (fun a : PaintAcc => a.heap q = acc.heap q)
    (paint_front X cc W H rb) l
    (fun a b hb h => ((paint_front_frame X cc W H rb a b).1 q (fun e => hq (e ▸ hb))).trans h)
    acc rfl

theorem paint_back_clip (rb : Picture) (acc : PaintAcc) (p : Ptr) :
    ((paint_back rb acc p).heap p).border_clip = none := by
  unfold paint_back
  simp only [Function.update_same]

/-- The second loop leaves no `border_clip` in the records of the listed
clients, and none in a record that had none. -/
theorem pass2_clip (rb : Picture) (q : Ptr) :
    ∀ (l : List Ptr) (acc : PaintAcc), (q ∈ l ∨ (acc.heap q).border_clip = none) →
      ((l.foldr (fun p a => paint_back rb a p) acc).heap q).border_clip = none := by
  intro l
  induction l with
  | nil =>
    intro acc h
    rcases h with h | h
    · cases h
    · exact h
  | cons p l ih =>
    intro acc h
    rw [List.foldr_cons]
    by_cases hq : q = p
    · subst hq; exact paint_back_clip rb _ q
    · rw [(paint_back_frame rb _ p).1 q hq]
      refine ih acc ?_
      rcases h with h | h
      · rcases List.mem_cons.1 h with h | h
        · exact absurd h hq
        · exact Or.inl h
      · exact Or.inr h

theorem prepared_alpha (X : XServer) (cc : Bool) (w : Client) :
    (ensure_regions X (drop_cached cc (ensure_picture X w))).alpha_pict = w.alpha_pict := by
  unfold ensure_regions drop_cached ensure_picture
  split <;> split <;> rfl

/-- Neither loop of `paint_all` writes an alpha mask. -/
theorem paint_front_alpha (X : XServer) (cc : Bool) (W H : Int) (rb : Picture)
    (acc : PaintAcc) (p q : Ptr) :
    ((paint_front X cc W H rb acc p).heap q).alpha_pict = (acc.heap q).alpha_pict := by
  unfold paint_front
  simp only
  split
  · rfl
  · split
    · rfl
    · by_cases hq : q = p
      · subst hq
        simp only [Function.update_same]
        exact prepared_alpha X cc _
      · simp only [Function.update_noteq hq]

theorem paint_back_alpha (rb : Picture) (acc : PaintAcc) (p q : Ptr) :
    ((paint_back rb acc p).heap q).alpha_pict = (acc.heap q).alpha_pict := by
  unfold paint_back
  by_cases hq : q = p
  · subst hq; simp only [Function.update_same]
  · simp only [Function.update_noteq hq]

theorem settles_paint_all (X : XServer) (s : State) (region : XserverRegion) :
    Settles s (paint_all X s region).1 := by
  refine ⟨List.Subperm.refl _, rfl, fun h q => ⟨?_, ?_⟩⟩
  · show ((paint_pass2 X s region).heap q).border_clip = none
    unfold paint_pass2
    refine pass2_clip (paint_buffer X s) q s.clients _ ?_
    by_cases hq : q ∈ s.clients
    · exact Or.inl hq
    · refine Or.inr ?_
      show ((paint_pass1 X s region).heap q).border_clip = none
      unfold paint_pass1
      rw [pass1_heap_unlisted X _ _ _ _ q s.clients hq]
      exact (h q).1
  · show ((paint_pass2 X s region).heap q).alpha_pict = 0
    have h2 : ((paint_pass2 X s region).heap q).alpha_pict
        = ((paint_root X s (paint_pass1 X s region)).heap q).alpha_pict :=
      foldr_invariant
        (fun a : PaintAcc => (a.heap q).alpha_pict
          = ((paint_root X s (paint_pass1 X s region)).heap q).alpha_pict)
        _ (fun b a ha => (paint_back_alpha _ a b q).trans ha) s.clients _ rfl
    have h1 : ((paint_pass1 X s region).heap q).alpha_pict = (s.heap q).alpha_pict :=
      foldl_invariant
        (fun a : PaintAcc => (a.heap q).alpha_pict = (s.heap q).alpha_pict)
        _ (fun a b ha => (paint_front_alpha X _ _ _ _ a b q).trans ha) s.clients _ rfl
    rw [h2]
    exact h1.trans (h q).2

theorem settles_frame_step (X : XServer) (s : State) : Settles s (frame_step X s).1 := by
  unfold frame_step
  cases h : s.all_damage with
  | none => exact Settles.same s
  | some damage =>
    simp only
    exact (settles_paint_all X s (some damage)).chain (settles_globals _ _ rfl rfl rfl)

theorem settles_shape_win (X : XServer) (s : State) (se : XShapeEvent) :
    Settles s (shape_win X s se).1 := by
  unfold shape_win
  cases h : get_client_from_window s se.window with
  | none => exact Settles.same s
  | some p =>
    simp only
    split
    · refine Settles.chain ?_ (settles_paint_all X _ _)
      refine settles_update _ _ p _ rfl rfl rfl (fun hb => ?_)
      split
      · exact hb
      · exact hb
    · exact Settles.same s

theorem ready_add_client (X : XServer) (s : State) (window : Window)
    (uninit : Window_Opaqueness) (hs : PaintReady s) :
    PaintReady (add_client X s window uninit) := by
  unfold add_client
  cases h : X.getWindowAttributes window with
  | none => exact hs
  | some attr =>
    simp only
    have h1 : PaintReady
        { s with
          heap := Function.update s.heap s.next (new_client X window attr uninit)
          clients := s.next :: s.clients
          next := s.next + 1 } := by
      refine ⟨List.nodup_cons.2 ⟨fun hm => Nat.lt_irrefl _ (hs.2.1 _ hm), hs.1⟩, ?_, ?_⟩
      · intro q hq
        simp only [List.mem_cons] at hq
        rcases hq with rfl | hq
        · exact Nat.lt_succ_self _
        · exact Nat.lt_succ_of_lt (hs.2.1 q hq)
      · intro q
        by_cases hq : q = s.next
        · subst hq; simp only [Function.update_same]; exact ⟨rfl, rfl⟩
        · simp only [Function.update_noteq hq]; exact hs.2.2 q
    split
    · exact (settles_map_win X _ window).ready h1
    · exact h1

theorem ready_main_event (X : XServer) (s : State) (ev : XEvent) (hs : PaintReady s) :
    PaintReady (main_event X s ev) := by
  cases ev with
  | CreateNotify window uninit => exact ready_add_client X s window uninit hs
  | ConfigureNotify ce => exact (settles_configure_client s ce).ready hs
  | DestroyNotify window => exact (settles_destroy_win s window true).ready hs
  | MapNotify window => exact (settles_map_win X s window).ready hs
  | UnmapNotify window => exact (settles_unmap_win s window).ready hs
  | ReparentNotify window parent uninit =>
    simp only [main_event]
    split
    · exact ready_add_client X s window uninit hs
    · exact (settles_destroy_win s window false).ready hs
  | CirculateNotify ce uninit => exact (settles_circulate_client s ce uninit).ready hs
  | Expose window count rects =>
    simp only [main_event]
    split
    · split
      · exact (settles_add_damage s _).ready hs
      · exact hs
    · exact hs
  | PropertyNotify window background opacity =>
    simp only [main_event]
    have h1 : PaintReady (if background = true then
        (if s.root_tile ≠ 0 then { s with root_tile := 0 } else s) else s) := by
      split
      · split
        · exact (settles_globals s _ rfl rfl rfl).ready hs
        · exact hs
      · exact hs
    split
    · split
      · exact (settles_determine_opaqueness X _ _).ready h1
      · exact h1
    · exact h1
  | DamageNotify de => exact (settles_damage_client X s de).ready hs
  | ShapeNotify se => exact (settles_shape_win X s se).ready hs
  | Other => exact hs

theorem ready_main_step (X : XServer) (s : State) (step : MainStep) (hs : PaintReady s) :
    PaintReady (main_step X s step) := by
  cases step with
  | event ev => exact ready_main_event X s ev hs
  | first_paint => exact (settles_paint_all X s none).ready hs
  | frame => exact (settles_frame_step X s).ready hs

/-- Every state `main` reaches lists no address twice and holds neither a
`border_clip` nor an alpha mask. -/
theorem ready_runMain (X : XServer) (root_window : Window) (root_width root_height : Int)
    (root_picture : Picture) (steps : List MainStep) :
    PaintReady (runMain X (State.init root_window root_width root_height root_picture) steps) :=
  foldl_invariant PaintReady (main_step X) (ready_main_step X) steps _
    ⟨List.nodup_nil, fun _ h => absurd h (List.not_mem_nil _), fun _ => ⟨rfl, rfl⟩⟩

/-- C6: in every state `main` reaches, for every paint pass and any two
clients `A` and `B` with `A` listed before `B`, both damaged and on-screen,
and `A` solid: every composite of `B` the pass issues is clipped to a region
disjoint from the border size of `A` that the pass uses and leaves cached. -/
theorem paint_all_occludes (X : XServer) (root_window : Window) (root_width root_height : Int)
    (root_picture : Picture) (steps : List MainStep) (region : XserverRegion)
    (A B : Ptr) (pre mid post : List Ptr)
    (hl : (runMain X (State.init root_window root_width root_height root_picture) steps).clients
      = pre ++ A :: (mid ++ B :: post))
    (hAd : ((runMain X (State.init root_window root_width root_height root_picture)
      steps).heap A).damaged ≠ 0)
    (hAv : invisible
      (runMain X (State.init root_window root_width root_height root_picture) steps).root_width
      (runMain X (State.init root_window root_width root_height root_picture) steps).root_height
      ((runMain X (State.init root_window root_width root_height root_picture) steps).heap A)
        = false)
    (hAs : ((runMain X (State.init root_window root_width root_height root_picture)
      steps).heap A).opaqueness = Window_Opaqueness.SOLID)
    (hBd : ((runMain X (State.init root_window root_width root_height root_picture)
      steps).heap B).damaged ≠ 0)
    (hBv : invisible
      (runMain X (State.init root_window root_width root_height root_picture) steps).root_width
      (runMain X (State.init root_window root_width root_height root_picture) steps).root_height
      ((runMain X (State.init root_window root_width root_height root_picture) steps).heap B)
        = false) :
    ∃ bs,
      ((paint_all X (runMain X (State.init root_window root_width root_height root_picture)
        steps) region).1.heap A).border_size = some bs
      ∧ ∀ r ∈ (paint_all X (runMain X
          (State.init root_window root_width root_height root_picture) steps) region).2,
          r.drawsClient B = true → ∃ c, r.clipOf = some c ∧ Disjoint c bs := by
  have hr := ready_runMain X root_window root_width root_height root_picture steps
  exact paint_all_occludes_of X _ region A B pre mid post hl hr.1 hAd hAv hAs hBd hBv
    (Or.inr (hr.2.2 B).1)

/-- After `demoSteps` on `demoMixed` the solid window 2 (address 1) is in
front of window 1 (address 0); both are damaged and on screen. -/
theorem paint_all_occludes_witness :
    ∃ bs,
      ((paint_all demoMixed (runMain demoMixed (State.init 1000 100 100 40) demoSteps)
        none).1.heap 1).border_size = some bs
      ∧ ∀ r ∈ (paint_all demoMixed (runMain demoMixed (State.init 1000 100 100 40) demoSteps)
          none).2,
          r.drawsClient 0 = true → ∃ c, r.clipOf = some c ∧ Disjoint c bs :=
  paint_all_occludes demoMixed 1000 100 100 40 demoSteps none 1 0 [] [] []
    (by decide) (by decide) (by decide) (by decide) (by decide) (by decide)

/-- C5: the second loop of `paint_all` composites a client that has not
reported damage.  Window 1 is created viewable with an alpha-channel visual,
so `add_client` leaves it with `damaged = 0` and `ARGB`; the paint pass `main`
runs next issues a composite with that client as source. -/
theorem paint_all_composites_undamaged :
    (runMain demoServer demoInit
      [MainStep.event (XEvent.CreateNotify 1 Window_Opaqueness.SOLID)]).clients = [0]
    ∧ ((runMain demoServer demoInit
      [MainStep.event (XEvent.CreateNotify 1 Window_Opaqueness.SOLID)]).heap 0).damaged = 0
    ∧ ((runMain demoServer demoInit
      [MainStep.event (XEvent.CreateNotify 1 Window_Opaqueness.SOLID)]).heap 0).opaqueness
        = Window_Opaqueness.ARGB
    ∧ (paint_all demoServer (runMain demoServer demoInit
        [MainStep.event (XEvent.CreateNotify 1 Window_Opaqueness.SOLID)]) none).2.any
          (XReq.drawsClient 0) = true := by
  decide

/-- C8: for every window registered in a state `main` reaches, after
`unmap_win`: `damaged` is 0; the pending damage is the previous pending
damage united with the extents the window had cached (unchanged if it had
none); the pixmap, picture, alpha mask, border_size, extents and border_clip
handles are all absent; and the geometry (x, y, width, height, border width)
is unchanged. -/
theorem unmap_win_effect (X : XServer) (root_window : Window) (root_width root_height : Int)
    (root_picture : Picture) (steps : List MainStep) (W : Window) (p : Ptr)
    (h : get_client_from_window
      (runMain X (State.init root_window root_width root_height root_picture) steps) W
        = some p) :
    ((unmap_win (runMain X (State.init root_window root_width root_height root_picture)
      steps) W).heap p).damaged = 0
    ∧ (unmap_win (runMain X (State.init root_window root_width root_height root_picture)
        steps) W).all_damage
        = (match ((runMain X (State.init root_window root_width root_height root_picture)
            steps).heap p).extents with
           | some e =>
             some ((runMain X (State.init root_window root_width root_height root_picture)
               steps).all_damage.getD ∅ ∪ e)
           | none =>
             (runMain X (State.init root_window root_width root_height root_picture)
               steps).all_damage)
    ∧ ((unmap_win (runMain X (State.init root_window root_width root_height root_picture)
        steps) W).heap p).pixmap = 0
    ∧ ((unmap_win (runMain X (State.init root_window root_width root_height root_picture)
        steps) W).heap p).picture = 0
    ∧ ((unmap_win (runMain X (State.init root_window root_width root_height root_picture)
        steps) W).heap p).alpha_pict = 0
    ∧ ((unmap_win (runMain X (State.init root_window root_width root_height root_picture)
        steps) W).heap p).border_size = none
    ∧ ((unmap_win (runMain X (State.init root_window root_width root_height root_picture)
        steps) W).heap p).extents = none
    ∧ ((unmap_win (runMain X (State.init root_window root_width root_height root_picture)
        steps) W).heap p).border_clip = none
    ∧ ((unmap_win (runMain X (State.init root_window root_width root_height root_picture)
        steps) W).heap p).attr.x
        = ((runMain X (State.init root_window root_width root_height root_picture)
            steps).heap p).attr.x
    ∧ ((unmap_win (runMain X (State.init root_window root_width root_height root_picture)
        steps) W).heap p).attr.y
        = ((runMain X (State.init root_window root_width root_height root_picture)
            steps).heap p).attr.y
    ∧ ((unmap_win (runMain X (State.init root_window root_width root_height root_picture)
        steps) W).heap p).attr.width
        = ((runMain X (State.init root_window root_width root_height root_picture)
            steps).heap p).attr.width
    ∧ ((unmap_win (runMain X (State.init root_window root_width root_height root_picture)
        steps) W).heap p).attr.height
        = ((runMain X (State.init root_window root_width root_height root_picture)
            steps).heap p).attr.height
    ∧ ((unmap_win (runMain X (State.init root_window root_width root_height root_picture)
        steps) W).heap p).attr.border_width
        = ((runMain X (State.init root_window root_width root_height root_picture)
            steps).heap p).attr.border_width := by
  have hr := ready_runMain X root_window root_width root_height root_picture steps
  obtain ⟨k1, k2, k3, k4, k5, k6, k7, k8, k9, k10, k11, k12, k13, _, _⟩ :=
    unmap_win_record _ W p h
  exact ⟨k1, k2, k3, k4, k8.trans (hr.2.2 p).2, k5, k6, k7, k9, k10, k11, k12, k13⟩

/-- Window 1 (address 0) unmapped after `demoSteps`, in which it was painted
and damaged. -/
theorem unmap_win_effect_witness :
    ((unmap_win (runMain demoMixed (State.init 1000 100 100 40) demoSteps) 1).heap 0).damaged
      = 0 :=
  (unmap_win_effect demoMixed 1000 100 100 40 demoSteps 1 0 (by decide)).1

/-! ## `determine_opaqueness` -/

theorem add_damage_heap (s : State) (damage : Region) : (add_damage s damage).heap = s.heap :=
  (add_damage_rest s damage).2.1

/-- The record `determine_opaqueness` leaves: only `alpha_pict` and
`opaqueness` are written. -/
theorem determine_opaqueness_record (X : XServer) (s : State) (p : Ptr) :
    (determine_opaqueness X s p).heap p
      = { s.heap p with
          alpha_pict := 0
          opaqueness := ((determine_opaqueness X s p).heap p).opaqueness } := by
  unfold determine_opaqueness
  simp only [release_eq_zero]
  cases hE : (s.heap p).extents <;> simp [hE, add_damage_heap]

theorem determine_opaqueness_solid (X : XServer) (s : State) (p : Ptr)
    (h : ¬ ((s.heap p).attr.c_class ≠ InputOnly
          ∧ ∃ f, X.findVisualFormat (s.heap p).attr.visual = some f
              ∧ f.type = PictTypeDirect ∧ f.alphaMask ≠ 0)) :
    ((determine_opaqueness X s p).heap p).opaqueness = Window_Opaqueness.SOLID := by
  unfold determine_opaqueness
  by_cases hc : (s.heap p).attr.c_class = InputOnly
  · cases hE : (s.heap p).extents <;> simp [hE, hc, add_damage_heap]
  · cases hf : X.findVisualFormat (s.heap p).attr.visual with
    | none => cases hE : (s.heap p).extents <;> simp [hE, hc, hf, add_damage_heap]
    | some f =>
      have hd : ¬ (f.type = PictTypeDirect ∧ f.alphaMask ≠ 0) :=
        fun hd => h ⟨hc, f, hf, hd.1, hd.2⟩
      have hd2 : ¬ (f.type = PictTypeDirect ∧ ¬ f.alphaMask = 0) := hd
      cases hE : (s.heap p).extents <;> simp [hE, hc, hf, hd2, add_damage_heap]

theorem determine_opaqueness_argb (X : XServer) (s : State) (p : Ptr)
    (h : (s.heap p).attr.c_class ≠ InputOnly
          ∧ ∃ f, X.findVisualFormat (s.heap p).attr.visual = some f
              ∧ f.type = PictTypeDirect ∧ f.alphaMask ≠ 0) :
    ((determine_opaqueness X s p).heap p).opaqueness = Window_Opaqueness.ARGB := by
  obtain ⟨hc, f, hf, hd1, hd2⟩ := h
  have hc2 : ¬ (s.heap p).attr.c_class = InputOnly := hc
  have hd3 : ¬ f.alphaMask = 0 := hd2
  unfold determine_opaqueness
  cases hE : (s.heap p).extents <;> simp [hE, hc2, hf, hd1, hd3, add_damage_heap]

/-- C15: `determine_opaqueness` sets `opaqueness` to `ARGB` exactly when the
window is not `InputOnly` and the picture format of its visual exists, is
direct and has a non-zero alpha mask, and to `SOLID` otherwise, never to
`TRANSPARENT`; it leaves the alpha mask handle absent; the extents handle of
the window is unchanged; and the pending damage is united with the cached
extents if the window has some, and is unchanged otherwise. -/
theorem determine_opaqueness_effect (X : XServer) (s : State) (p : Ptr) :
    (((determine_opaqueness X s p).heap p).opaqueness = Window_Opaqueness.ARGB
      ↔ ((s.heap p).attr.c_class ≠ InputOnly
          ∧ ∃ f, X.findVisualFormat (s.heap p).attr.visual = some f
              ∧ f.type = PictTypeDirect ∧ f.alphaMask ≠ 0))
    ∧ (((determine_opaqueness X s p).heap p).opaqueness = Window_Opaqueness.SOLID
      ↔ ¬ ((s.heap p).attr.c_class ≠ InputOnly
          ∧ ∃ f, X.findVisualFormat (s.heap p).attr.visual = some f
              ∧ f.type = PictTypeDirect ∧ f.alphaMask ≠ 0))
    ∧ ((determine_opaqueness X s p).heap p).opaqueness ≠ Window_Opaqueness.TRANSPARENT
    ∧ ((determine_opaqueness X s p).heap p).alpha_pict = 0
    ∧ ((determine_opaqueness X s p).heap p).extents = (s.heap p).extents
    ∧ (determine_opaqueness X s p).all_damage
        = (match (s.heap p).extents with
           | some e => some (s.all_damage.getD ∅ ∪ e)
           | none => s.all_damage) := by
  have hdam : (determine_opaqueness X s p).all_damage
        = (match (s.heap p).extents with
           | some e => some (s.all_damage.getD ∅ ∪ e)
           | none => s.all_damage) := by
    unfold determine_opaqueness
    cases hE : (s.heap p).extents with
    | none => simp [hE]
    | some e =>
      simp only [hE, add_damage_all_damage]
      cases s.all_damage <;> simp
  have hrec := determine_opaqueness_record X s p
  refine ⟨?_, ?_, ?_, by rw [hrec], by rw [hrec], hdam⟩
  · by_cases hcond : ((s.heap p).attr.c_class ≠ InputOnly
          ∧ ∃ f, X.findVisualFormat (s.heap p).attr.visual = some f
              ∧ f.type = PictTypeDirect ∧ f.alphaMask ≠ 0)
    · exact ⟨fun _ => hcond, fun _ => determine_opaqueness_argb X s p hcond⟩
    · refine ⟨fun h => ?_, fun h => absurd h hcond⟩
      rw [determine_opaqueness_solid X s p hcond] at h
      cases h
  · by_cases hcond : ((s.heap p).attr.c_class ≠ InputOnly
          ∧ ∃ f, X.findVisualFormat (s.heap p).attr.visual = some f
              ∧ f.type = PictTypeDirect ∧ f.alphaMask ≠ 0)
    · refine ⟨fun h => ?_, fun h => absurd hcond h⟩
      rw [determine_opaqueness_argb X s p hcond] at h
      cases h
    · exact ⟨fun _ => hcond, fun _ => determine_opaqueness_solid X s p hcond⟩
  · by_cases hcond : ((s.heap p).attr.c_class ≠ InputOnly
          ∧ ∃ f, X.findVisualFormat (s.heap p).attr.visual = some f
              ∧ f.type = PictTypeDirect ∧ f.alphaMask ≠ 0)
    · rw [determine_opaqueness_argb X s p hcond]; exact fun h => by cases h
    · rw [determine_opaqueness_solid X s p hcond]; exact fun h => by cases h

/-! ## `configure_client` and the composite source -/

/-- The record `configure_client` leaves for a registered window. -/
theorem configure_client_record (s : State) (ce : XConfigureEvent) (p : Ptr)
    (h : get_client_from_window s ce.window = some p) :
    (configure_client s ce).heap p
      = configure_shape_bounds (configure_geometry (s.heap p) ce) := by
  have hh := restack_win_heap
    { s with heap := Function.update s.heap p (configure_geometry (s.heap p) ce) }
    ce.window ce.above
  unfold configure_client
  simp only [h, Function.update_same, add_damage_heap, hh.1]

/-- C13 as stated fails: the picture is only freed inside `if (client->pixmap)`.
On a server that names no window pixmap the paint pass creates the picture on
the window itself; after a configure event that changes the width the client
still holds that picture. -/
theorem configure_client_keeps_window_picture :
    get_client_from_window (runMain demoNoPixmap demoInit demoPaintedSteps) 1 = some 0
    ∧ ((runMain demoNoPixmap demoInit demoPaintedSteps).heap 0).attr.width = 10
    ∧ ((runMain demoNoPixmap demoInit demoPaintedSteps).heap 0).pixmap = 0
    ∧ ((configure_client (runMain demoNoPixmap demoInit demoPaintedSteps)
        demoResize).heap 0).picture = 301 := by
  decide

/-- C13, amended: for every registered window and every configure event whose
width or height differs from the recorded one, after `configure_client` the
pixmap is absent; the picture is absent if the window held a pixmap, and is
the picture it held before if it held no pixmap. -/
theorem configure_client_drops_source (s : State) (ce : XConfigureEvent) (p : Ptr)
    (h : get_client_from_window s ce.window = some p)
    (hsize : (s.heap p).attr.width ≠ ce.width ∨ (s.heap p).attr.height ≠ ce.height) :
    ((configure_client s ce).heap p).pixmap = 0
    ∧ ((s.heap p).pixmap ≠ 0 → ((configure_client s ce).heap p).picture = 0)
    ∧ ((s.heap p).pixmap = 0 →
        ((configure_client s ce).heap p).picture = (s.heap p).picture) := by
  rw [configure_client_record s ce p h]
  simp only [configure_shape_bounds, configure_geometry, hsize, decide_True, if_true,
    release_eq_zero]
  refine ⟨trivial, fun hp => ?_, fun hp => ?_⟩
  · simp only [hp, ne_eq, not_false_eq_true, if_true, release_eq_zero]
  · simp only [hp, ne_eq, not_true_eq_false, if_false]

/-- Window 1 of `demoPaintedSteps` on `demoServer`, which holds a pixmap,
resized. -/
theorem configure_client_drops_source_witness :
    ((configure_client (runMain demoServer demoInit demoPaintedSteps) demoResize).heap 0).pixmap
      = 0 :=
  (configure_client_drops_source (runMain demoServer demoInit demoPaintedSteps) demoResize 0
    (by decide) (by decide)).1

/-! ## `circulate_client` -/

/-- C16: `circulate_client` with `PlaceOnTop` for the window that is already
at the front loses it.  In `demoTwo` (ids `[2, 1]`) the target is the window
itself, `restack_win 2 2` erases the client and does not find the target
again: the list is `[1]`, not a permutation of the old one. -/
theorem circulate_client_front_is_lost :
    demoTwo.ids = [2, 1]
    ∧ (circulate_client demoTwo { window := 2, place := PlaceOnTop } 0).ids = [1]
    ∧ (main_event demoServer demoTwo
        (XEvent.CirculateNotify { window := 2, place := PlaceOnTop } 0)).clients = [0]
    ∧ ¬ (circulate_client demoTwo { window := 2, place := PlaceOnTop } 0).clients.Perm
        demoTwo.clients := by
  refine ⟨by decide, by decide, by decide, fun h => ?_⟩
  have := h.length_eq
  revert this
  decide

/-- What `circulate_client` does in the other cases: for a registered window
that is not at the front (and a front window whose id is not the null id),
`PlaceOnTop` puts it at index 0; `PlaceOnBottom` puts a registered window
last; in both cases the list is a permutation of the old one and
`clip_changed` is true. -/
theorem circulate_client_moves (s : State) (W : Window) (p : Ptr) (uninit : Window)
    (h : get_client_from_window s W = some p) :
    (∀ q rest, s.clients = q :: rest → (s.heap q).window ≠ W → (s.heap q).window ≠ 0 →
      (circulate_client s { window := W, place := PlaceOnTop } uninit).ids.head? = some W
      ∧ (circulate_client s { window := W, place := PlaceOnTop } uninit).clients.Perm s.clients
      ∧ (circulate_client s { window := W, place := PlaceOnTop } uninit).clip_changed = true)
    ∧ (circulate_client s { window := W, place := PlaceOnBottom } uninit).ids.getLast? = some W
    ∧ (circulate_client s { window := W, place := PlaceOnBottom } uninit).clients.Perm s.clients
    ∧ (circulate_client s { window := W, place := PlaceOnBottom } uninit).clip_changed = true := by
  have hW := (lookup_some h).2
  have hM : W ∈ s.clients.map (fun p => (s.heap p).window) := lookup_mem_ids h
  constructor
  · intro q rest hl hq hq0
    have hM2 : W ∈ rest.map (fun p => (s.heap p).window) := by
      rw [hl] at hM
      simp only [List.map_cons, List.mem_cons] at hM
      rcases hM with hM | hM
      · exact absurd hM.symm hq
      · exact hM
    obtain ⟨m, pre, post, hrest, hm, _, hs⟩ :=
      restack_scan_found (fun p => (s.heap p).window) W rest (some q) hM2
    have e : circulate_client s { window := W, place := PlaceOnTop } uninit
        = { s with clients := m :: q :: (pre ++ post), clip_changed := true } := by
      simp only [circulate_client, h, hW, restack_win, hl, restack_scan, hq, hs,
        List.headD_cons, if_true, if_false, ne_eq, hq0, not_false_eq_true, restack_insert]
    rw [e]
    refine ⟨by simp [State.ids, hm], ?_, rfl⟩
    simp only
    rw [hl, hrest]
    exact (List.Perm.swap q m (pre ++ post)).trans
      ((@List.perm_middle _ m pre post).symm.cons q)
  · obtain ⟨m, h1, h2, h3, h4⟩ :=
      restack_bottom (fun p => (s.heap p).window) W s.clients hM
    have e : circulate_client s { window := W, place := PlaceOnBottom } uninit
        = { s with
            clients := (restack_scan (fun p => (s.heap p).window) W s.clients none).2 ++ [m]
            clip_changed := true } := by
      simp [circulate_client, h, hW, restack_win, h1, PlaceOnTop, PlaceOnBottom]
    rw [e]
    exact ⟨h2, h4, rfl⟩

/-! ## What the paint pass leaves alone -/

theorem sameCore_refl (c : Client) : SameCore c c :=
  ⟨rfl, rfl, rfl, rfl, rfl, rfl, rfl, rfl⟩

theorem sameCore_trans {c d e : Client} (h1 : SameCore c d) (h2 : SameCore d e) :
    SameCore c e :=
  ⟨h2.1.trans h1.1, h2.2.1.trans h1.2.1, h2.2.2.1.trans h1.2.2.1,
    h2.2.2.2.1.trans h1.2.2.2.1, h2.2.2.2.2.1.trans h1.2.2.2.2.1,
    h2.2.2.2.2.2.1.trans h1.2.2.2.2.2.1, h2.2.2.2.2.2.2.1.trans h1.2.2.2.2.2.2.1,
    h2.2.2.2.2.2.2.2.trans h1.2.2.2.2.2.2.2⟩

theorem prepared_core (X : XServer) (cc : Bool) (w : Client) :
    SameCore w (ensure_regions X (drop_cached cc (ensure_picture X w))) := by
  unfold ensure_regions drop_cached ensure_picture
  split <;> split <;> exact ⟨rfl, rfl, rfl, rfl, rfl, rfl, rfl, rfl⟩

theorem paint_front_core (X : XServer) (cc : Bool) (W H : Int) (rb : Picture)
    (acc : PaintAcc) (p q : Ptr) :
    SameCore (acc.heap q) ((paint_front X cc W H rb acc p).heap q) := by
  unfold paint_front
  simp only
  split
  · exact sameCore_refl _
  · split
    · exact sameCore_refl _
    · by_cases hq : q = p
      · subst hq
        simp only [Function.update_same]
        exact prepared_core X cc _
      · simp only [Function.update_noteq hq]
        exact sameCore_refl _

theorem paint_back_core (rb : Picture) (acc : PaintAcc) (p q : Ptr) :
    SameCore (acc.heap q) ((paint_back rb acc p).heap q)
    ∧ ((paint_back rb acc p).heap q).extents = (acc.heap q).extents := by
  unfold paint_back
  by_cases hq : q = p
  · subst hq
    simp only [Function.update_same]
    exact ⟨⟨rfl, rfl, rfl, rfl, rfl, rfl, rfl, rfl⟩, trivial⟩
  · simp only [Function.update_noteq hq]
    exact ⟨sameCore_refl _, trivial⟩

theorem paint_pass1_core (X : XServer) (s : State) (region : XserverRegion) (q : Ptr) :
    SameCore (s.heap q) ((paint_pass1 X s region).heap q) :=
  foldl_invariant (fun a : PaintAcc => SameCore (s.heap q) (a.heap q)) _
    (fun a b ha => sameCore_trans ha (paint_front_core X _ _ _ _ a b q)) s.clients _
    (sameCore_refl _)

/-- The second loop writes nothing but `border_clip`. -/
theorem paint_pass2_core (X : XServer) (s : State) (region : XserverRegion) (q : Ptr) :
    SameCore ((paint_pass1 X s region).heap q) ((paint_pass2 X s region).heap q)
    ∧ ((paint_pass2 X s region).heap q).extents = ((paint_pass1 X s region).heap q).extents
    ∧ ((paint_pass2 X s region).heap q).border_size
        = ((paint_pass1 X s region).heap q).border_size :=
  foldr_invariant
    (fun a : PaintAcc => SameCore ((paint_pass1 X s region).heap q) (a.heap q)
      ∧ (a.heap q).extents = ((paint_pass1 X s region).heap q).extents
      ∧ (a.heap q).border_size = ((paint_pass1 X s region).heap q).border_size) _
    (fun b a ha =>
      ⟨sameCore_trans ha.1 (paint_back_core _ a b q).1,
        ((paint_back_core _ a b q).2).trans ha.2.1,
        ((paint_back_frame _ a b).2.1 q).trans ha.2.2⟩)
    s.clients _ ⟨sameCore_refl _, rfl, rfl⟩

/-- The paint pass writes neither the window id, the attributes, the
opaqueness, the damage state, the alpha mask nor the shape of any record, and
none of the globals `all_damage`, `clip_changed`, `clients`. -/
theorem paint_all_core (X : XServer) (s : State) (region : XserverRegion) :
    (∀ q, SameCore (s.heap q) ((paint_all X s region).1.heap q))
    ∧ (paint_all X s region).1.all_damage = s.all_damage
    ∧ (paint_all X s region).1.clip_changed = s.clip_changed
    ∧ (paint_all X s region).1.clients = s.clients
    ∧ (paint_all X s region).1.next = s.next :=
  ⟨fun q => sameCore_trans (paint_pass1_core X s region q) (paint_pass2_core X s region q).1,
    rfl, rfl, rfl, rfl⟩

/-! ## `shape_win` -/

/-- C11 as stated fails: `shape_win` does not call `add_damage`.  In
`demoTwo`, where nothing is pending, a notification that the shape of window
1 is unset leaves `all_damage` at 0, although the old and the new bounding
rectangle cover the pixel (0, 0). -/
theorem shape_win_enqueues_nothing :
    get_client_from_window demoTwo 1 = some 0
    ∧ demoTwo.all_damage = none
    ∧ (0, 0) ∈ (demoTwo.heap 0).shape_bounds.pixels
        ∪ ((shape_win demoServer demoTwo demoUnset).1.heap 0).shape_bounds.pixels
    ∧ (shape_win demoServer demoTwo demoUnset).1.all_damage = none := by
  refine ⟨by decide, by decide, ?_, by decide⟩
  refine Finset.mem_union_left _ ?_
  have e : (demoTwo.heap 0).shape_bounds = XRectangle.assign 0 0 10 10 := by decide
  rw [e]
  exact (assign_pixels_of_fits 0 0 10 10 (by omega) (by omega) (by omega) (by omega) 0 0).2
    (by omega)

/-- The shape bounding rectangle `shape_win` stores for a notification. -/
theorem shape_win_bounds_eq (X : XServer) (s : State) (se : XShapeEvent) (p : Ptr)
    (h : get_client_from_window s se.window = some p)
    (hk : se.kind = ShapeClip ∨ se.kind = ShapeBounding) :
    shape_win X s se
      = paint_all X
          { s with
            heap := Function.update s.heap p
              (if se.shaped then
                { s.heap p with
                  shaped := true
                  shape_bounds :=
                    { x := toShort ((s.heap p).attr.x + se.x)
                      y := toShort ((s.heap p).attr.y + se.y)
                      width := toUShort se.width
                      height := toUShort se.height } }
               else
                { s.heap p with
                  shaped := false
                  shape_bounds :=
                    XRectangle.assign (s.heap p).attr.x (s.heap p).attr.y
                      (s.heap p).attr.width (s.heap p).attr.height })
            clip_changed := true }
          (some ((s.heap p).shape_bounds.pixels
            ∪ (if se.shaped then
                ({ x := toShort ((s.heap p).attr.x + se.x)
                   y := toShort ((s.heap p).attr.y + se.y)
                   width := toUShort se.width
                   height := toUShort se.height } : XRectangle)
               else
                XRectangle.assign (s.heap p).attr.x (s.heap p).attr.y
                  (s.heap p).attr.width (s.heap p).attr.height).pixels)) := by
  unfold shape_win
  simp only [h, hk, if_true, XFixesCreateRegion_single]
  split <;> rfl

/-- C11, amended: for every registered window and every bounding or clip
shape notification, `shape_win` stores the new shape bounding rectangle (the
reported one, or the full window rectangle x, y, width, height when the shape
is unset) and at once runs a paint pass on the union of the old and the new
bounding rectangle: the first request of the handler clips `root_picture` to
that union.  The pending damage `all_damage` is left as it was, and
`clip_changed` is true after the handler. -/
theorem shape_win_effect (X : XServer) (s : State) (se : XShapeEvent) (p : Ptr)
    (h : get_client_from_window s se.window = some p)
    (hk : se.kind = ShapeClip ∨ se.kind = ShapeBounding) :
    (shape_win X s se).1.all_damage = s.all_damage
    ∧ (shape_win X s se).1.clip_changed = true
    ∧ (shape_win X s se).2.head?
        = some (XReq.setClip s.root_picture
            (some ((s.heap p).shape_bounds.pixels
              ∪ ((shape_win X s se).1.heap p).shape_bounds.pixels)))
    ∧ (se.shaped = true →
        ((shape_win X s se).1.heap p).shape_bounds
          = { x := toShort ((s.heap p).attr.x + se.x)
              y := toShort ((s.heap p).attr.y + se.y)
              width := toUShort se.width
              height := toUShort se.height }
        ∧ ((shape_win X s se).1.heap p).shaped = true)
    ∧ (se.shaped = false →
        ((shape_win X s se).1.heap p).shape_bounds
          = XRectangle.assign (s.heap p).attr.x (s.heap p).attr.y
              (s.heap p).attr.width (s.heap p).attr.height
        ∧ ((shape_win X s se).1.heap p).shaped = false) := by
  rw [shape_win_bounds_eq X s se p h hk]
  obtain ⟨hcore, hdam, hclip, _, _⟩ := paint_all_core X
    { s with
      heap := Function.update s.heap p
        (if se.shaped then
          { s.heap p with
            shaped := true
            shape_bounds :=
              { x := toShort ((s.heap p).attr.x + se.x)
                y := toShort ((s.heap p).attr.y + se.y)
                width := toUShort se.width
                height := toUShort se.height } }
         else
          { s.heap p with
            shaped := false
            shape_bounds :=
              XRectangle.assign (s.heap p).attr.x (s.heap p).attr.y
                (s.heap p).attr.width (s.heap p).attr.height })
      clip_changed := true }
    (some ((s.heap p).shape_bounds.pixels
      ∪ (if se.shaped then
          ({ x := toShort ((s.heap p).attr.x + se.x)
             y := toShort ((s.heap p).attr.y + se.y)
             width := toUShort se.width
             height := toUShort se.height } : XRectangle)
         else
          XRectangle.assign (s.heap p).attr.x (s.heap p).attr.y
            (s.heap p).attr.width (s.heap p).attr.height).pixels))
  have hp := hcore p
  simp only [Function.update_same] at hp
  obtain ⟨_, _, _, _, _, _, hshaped, hbounds⟩ := hp
  refine ⟨hdam, hclip, ?_, fun hs => ?_, fun hs => ?_⟩
  · rw [paint_all_head, hbounds]
    simp only [paint_target]
    cases se.shaped <;> rfl
  · rw [hbounds, hshaped]; simp [hs]
  · rw [hbounds, hshaped]; simp [hs]

/-- The shape of window 1 of `demoTwo` reported unset. -/
theorem shape_win_effect_witness :
    (shape_win demoServer demoTwo demoUnset).1.clip_changed = true :=
  (shape_win_effect demoServer demoTwo demoUnset 0 (by decide) (by decide)).2.1

/-! ## Which cached regions a paint pass rebuilds -/

theorem get_border_size_core (X : XServer) {c d : Client} (h : SameCore c d) :
    get_border_size X d = get_border_size X c := by
  unfold get_border_size
  rw [h.1, h.2.1]

theorem client_extents_core {c d : Client} (h : SameCore c d) :
    client_extents d = client_extents c := by
  unfold client_extents
  rw [h.2.1]

theorem skipped_core (W H : Int) {c d : Client} (h : SameCore c d) :
    skipped W H d ↔ skipped W H c := by
  unfold skipped invisible
  rw [h.2.1, h.2.2.2.1]

theorem ensure_picture_core (X : XServer) (w : Client) : SameCore w (ensure_picture X w) := by
  unfold ensure_picture
  split <;> exact ⟨rfl, rfl, rfl, rfl, rfl, rfl, rfl, rfl⟩

theorem drop_cached_core (cc : Bool) (w : Client) : SameCore w (drop_cached cc w) := by
  unfold drop_cached
  split <;> exact ⟨rfl, rfl, rfl, rfl, rfl, rfl, rfl, rfl⟩

/-- A skipped client: the turn of the first loop changes nothing. -/
theorem paint_front_skipped (X : XServer) (cc : Bool) (W H : Int) (rb : Picture)
    (acc : PaintAcc) (p : Ptr) (h : skipped W H (acc.heap p)) :
    paint_front X cc W H rb acc p = acc := by
  unfold paint_front
  simp only
  rcases h with h | h
  · simp only [h, if_true]
  · split
    · rfl
    · simp only [h, if_true]

/-- A client that is not skipped, with `clip_changed` set: the turn of the
first loop rebuilds its border size and extents from its geometry. -/
theorem paint_front_rebuilds (X : XServer) (W H : Int) (rb : Picture)
    (acc : PaintAcc) (p : Ptr) (h : ¬ skipped W H (acc.heap p)) :
    ((paint_front X true W H rb acc p).heap p).border_size
      = some (get_border_size X (acc.heap p))
    ∧ ((paint_front X true W H rb acc p).heap p).extents
      = some (client_extents (acc.heap p)) := by
  have hd : (acc.heap p).damaged ≠ 0 := fun e => h (Or.inl e)
  have hv : invisible W H (acc.heap p) = false := by
    cases hi : invisible W H (acc.heap p)
    · rfl
    · exact absurd (Or.inr hi) h
  have hc : SameCore (acc.heap p) (drop_cached true (ensure_picture X (acc.heap p))) :=
    sameCore_trans (ensure_picture_core X _) (drop_cached_core true _)
  have hn : (drop_cached true (ensure_picture X (acc.heap p))).border_size = none
      ∧ (drop_cached true (ensure_picture X (acc.heap p))).extents = none := by
    simp [drop_cached]
  have hb : (ensure_regions X (drop_cached true (ensure_picture X (acc.heap p)))).border_size
        = some (get_border_size X (acc.heap p))
      ∧ (ensure_regions X (drop_cached true (ensure_picture X (acc.heap p)))).extents
        = some (client_extents (acc.heap p)) := by
    unfold ensure_regions
    simp only [hn.1, hn.2, get_border_size_core X hc, client_extents_core hc, and_self]
  unfold paint_front
  simp only [hd, hv, Bool.false_eq_true, if_false, Function.update_same]
  exact hb

/-- The first loop on a list: a skipped client keeps its cached border size
and extents. -/
theorem pass1_skipped (X : XServer) (cc : Bool) (W H : Int) (rb : Picture) (p : Ptr)
    (l : List Ptr) (acc : PaintAcc) (h : skipped W H (acc.heap p)) :
    (l.foldl (paint_front X cc W H rb) acc).heap p = acc.heap p :=
  foldl_invariant (fun a : PaintAcc => a.heap p = acc.heap p) _
    (fun a b ha => by
      by_cases hb : p = b
      · subst hb
        rw [paint_front_skipped X cc W H rb a p (by rw [ha]; exact h)]
        exact ha
      · exact ((paint_front_frame X cc W H rb a b).1 p hb).trans ha)
    l acc rfl

/-- The first loop on a list with `clip_changed` set: a listed client that is
not skipped ends with border size and extents rebuilt from its geometry. -/
theorem pass1_rebuilds (X : XServer) (W H : Int) (rb : Picture) (p : Ptr) (c : Client)
    (hc : ¬ skipped W H c) :
    ∀ (l : List Ptr) (acc : PaintAcc), SameCore c (acc.heap p) →
      (p ∈ l ∨ ((acc.heap p).border_size = some (get_border_size X c)
        ∧ (acc.heap p).extents = some (client_extents c))) →
      ((l.foldl (paint_front X true W H rb) acc).heap p).border_size
        = some (get_border_size X c)
      ∧ ((l.foldl (paint_front X true W H rb) acc).heap p).extents
        = some (client_extents c) := by
  intro l
  induction l with
  | nil =>
    intro acc _ h
    rcases h with h | h
    · cases h
    · exact h
  | cons b l ih =>
    intro acc hcore h
    rw [List.foldl_cons]
    refine ih _ (sameCore_trans hcore (paint_front_core X true W H rb acc b p)) ?_
    by_cases hb : p = b
    · subst hb
      refine Or.inr ?_
      have hr := paint_front_rebuilds X W H rb acc p
        (fun hs => hc ((skipped_core W H hcore).1 hs))
      rw [get_border_size_core X hcore, client_extents_core hcore] at hr
      exact hr
    · rcases h with h | h
      · rcases List.mem_cons.1 h with h | h
        · exact absurd h hb
        · exact Or.inl h
      · refine Or.inr ?_
        rw [(paint_front_frame X true W H rb acc b).1 p hb]
        exact h

/-- The regions a paint pass leaves cached for a listed client when
`clip_changed` is set. -/
theorem paint_all_cached (X : XServer) (s : State) (region : XserverRegion) (p : Ptr)
    (hc : s.clip_changed = true) (hp : p ∈ s.clients) :
    ((paint_all X s region).1.heap p).border_clip = none
    ∧ (skipped s.root_width s.root_height (s.heap p) →
        ((paint_all X s region).1.heap p).border_size = (s.heap p).border_size
        ∧ ((paint_all X s region).1.heap p).extents = (s.heap p).extents)
    ∧ (¬ skipped s.root_width s.root_height (s.heap p) →
        ((paint_all X s region).1.heap p).border_size = some (get_border_size X (s.heap p))
        ∧ ((paint_all X s region).1.heap p).extents = some (client_extents (s.heap p))) := by
  obtain ⟨_, k2, k3⟩ := paint_pass2_core X s region p
  refine ⟨?_, fun hs => ?_, fun hs => ?_⟩
  · show ((paint_pass2 X s region).heap p).border_clip = none
    unfold paint_pass2
    exact pass2_clip (paint_buffer X s) p s.clients _ (Or.inl hp)
  · show ((paint_pass2 X s region).heap p).border_size = (s.heap p).border_size
      ∧ ((paint_pass2 X s region).heap p).extents = (s.heap p).extents
    rw [k2, k3]
    unfold paint_pass1
    rw [pass1_skipped X _ _ _ _ p s.clients _ hs]
    exact ⟨rfl, rfl⟩
  · show ((paint_pass2 X s region).heap p).border_size = some (get_border_size X (s.heap p))
      ∧ ((paint_pass2 X s region).heap p).extents = some (client_extents (s.heap p))
    rw [k2, k3]
    unfold paint_pass1
    rw [hc]
    exact pass1_rebuilds X _ _ _ p (s.heap p) hs s.clients _ (sameCore_refl _) (Or.inl hp)

/-- C14 as stated fails: the cached regions are destroyed inside the first
loop, after the tests that skip a client.  Window 1 was painted and then
moved off screen, which sets `clip_changed`; the next paint pass skips it and
it still holds the border size and extents cached before the pass. -/
theorem paint_all_keeps_skipped_cache :
    (runMain demoServer demoInit demoOffscreenSteps).clip_changed = true
    ∧ (runMain demoServer demoInit demoOffscreenSteps).clients = [0]
    ∧ ((runMain demoServer demoInit demoOffscreenSteps).heap 0).damaged = 1
    ∧ invisible (runMain demoServer demoInit demoOffscreenSteps).root_width
        (runMain demoServer demoInit demoOffscreenSteps).root_height
        ((runMain demoServer demoInit demoOffscreenSteps).heap 0) = true
    ∧ ((runMain demoServer demoInit demoOffscreenSteps).heap 0).border_size.isSome = true
    ∧ ((runMain demoServer demoInit demoOffscreenSteps).heap 0).extents.isSome = true
    ∧ ((paint_all demoServer (runMain demoServer demoInit demoOffscreenSteps)
        (runMain demoServer demoInit demoOffscreenSteps).all_damage).1.heap 0).border_size
        = ((runMain demoServer demoInit demoOffscreenSteps).heap 0).border_size
    ∧ ((paint_all demoServer (runMain demoServer demoInit demoOffscreenSteps)
        (runMain demoServer demoInit demoOffscreenSteps).all_damage).1.heap 0).extents
        = ((runMain demoServer demoInit demoOffscreenSteps).heap 0).extents := by
  refine ⟨by decide, by decide, by decide, by decide, by decide, by decide, ?_⟩
  exact (paint_all_cached demoServer _ _ 0 (by decide) (by decide)).2.1 (Or.inr (by decide))

/-- C14, amended: for every state with `clip_changed = true`, after a paint
pass every client in the list has no `border_clip`; every listed client that
the first loop does not skip (damaged and on screen) holds a border size and
extents rebuilt in this pass from its geometry; a listed client that the
first loop skips keeps the border size and extents it held. -/
theorem paint_all_clip_changed (X : XServer) (s : State) (region : XserverRegion)
    (hc : s.clip_changed = true) :
    ∀ p ∈ s.clients,
      ((paint_all X s region).1.heap p).border_clip = none
      ∧ (¬ skipped s.root_width s.root_height (s.heap p) →
          ((paint_all X s region).1.heap p).border_size
            = some (get_border_size X (s.heap p))
          ∧ ((paint_all X s region).1.heap p).extents = some (client_extents (s.heap p)))
      ∧ (skipped s.root_width s.root_height (s.heap p) →
          ((paint_all X s region).1.heap p).border_size = (s.heap p).border_size
          ∧ ((paint_all X s region).1.heap p).extents = (s.heap p).extents) :=
  fun p hp =>
    ⟨(paint_all_cached X s region p hc hp).1, (paint_all_cached X s region p hc hp).2.2,
      (paint_all_cached X s region p hc hp).2.1⟩

/-- The state after `demoSteps`, in which `clip_changed` is still true: the
solid window at address 1 is painted and gets its border clip cleared. -/
theorem paint_all_clip_changed_witness :
    ((paint_all demoMixed (runMain demoMixed (State.init 1000 100 100 40) demoSteps)
      none).1.heap 1).border_clip = none :=
  (paint_all_clip_changed demoMixed (runMain demoMixed (State.init 1000 100 100 40) demoSteps)
    none (by decide) 1 (by decide)).1

/-! ## Which handlers can mark a window damaged -/

theorem still_refl (s : State) : Still s s :=
  ⟨le_refl _, fun _ _ => ⟨rfl, fun h => h⟩⟩

theorem still_trans {s t u : State} (h1 : Still s t) (h2 : Still t u) : Still s u :=
  ⟨le_trans h1.1 h2.1, fun q hq =>
    ⟨((h2.2 q (lt_of_lt_of_le hq h1.1)).1).trans (h1.2 q hq).1,
      fun h => (h2.2 q (lt_of_lt_of_le hq h1.1)).2 ((h1.2 q hq).2 h)⟩⟩

theorem still_undamaged {s t : State} {W : Window} {p : Ptr} (h : Still s t)
    (hs : Undamaged W p s) : Undamaged W p t :=
  ⟨lt_of_lt_of_le hs.1 h.1, ((h.2 p hs.1).1).trans hs.2.1, (h.2 p hs.1).2 hs.2.2⟩

theorem still_update (s t : State) (p : Ptr) (c : Client) (hn : t.next = s.next)
    (hh : t.heap = Function.update s.heap p c) (hw : c.window = (s.heap p).window)
    (hd : (s.heap p).damaged = 0 → c.damaged = 0) : Still s t := by
  refine ⟨le_of_eq hn.symm, fun q _ => ?_⟩
  rw [hh]
  by_cases hq : q = p
  · subst hq; simp only [Function.update_same]; exact ⟨hw, hd⟩
  · rw [Function.update_noteq hq]; exact ⟨rfl, fun h => h⟩

theorem still_globals (s t : State) (hn : t.next = s.next) (hh : t.heap = s.heap) :
    Still s t :=
  ⟨le_of_eq hn.symm, fun q _ => by rw [hh]; exact ⟨rfl, fun h => h⟩⟩

theorem still_add_damage (s : State) (damage : Region) : Still s (add_damage s damage) :=
  still_globals _ _ (add_damage_rest s damage).2.2.1 (add_damage_rest s damage).2.1

theorem still_finish_unmap_client (s : State) (p : Ptr) :
    Still s (finish_unmap_client s p) := by
  have hk := keeps_finish_unmap_client s p
  refine ⟨le_of_eq hk.2.1.symm, fun q _ => ⟨hk.2.2 q, fun h => ?_⟩⟩
  by_cases hq : q = p
  · subst hq; rw [finish_unmap_client_record]
  · have e : (finish_unmap_client s p).heap q = s.heap q := by
      unfold finish_unmap_client
      cases hE : (s.heap p).extents with
      | none => simp [hE, Function.update_noteq hq]
      | some e => simp [hE, Function.update_noteq hq, (add_damage_rest s e).2.1]
    rw [e]; exact h

theorem still_unmap_win (s : State) (window : Window) : Still s (unmap_win s window) := by
  unfold unmap_win
  cases h : get_client_from_window s window with
  | none => exact still_refl s
  | some p =>
    simp only
    refine still_trans ?_ (still_finish_unmap_client _ p)
    exact still_update _ _ p _ rfl rfl rfl (fun h => h)

theorem still_determine_opaqueness (X : XServer) (s : State) (p : Ptr) :
    Still s (determine_opaqueness X s p) := by
  unfold determine_opaqueness
  simp only
  cases h : (s.heap p).extents with
  | none => exact still_update _ _ p _ rfl rfl rfl (fun h => h)
  | some e =>
    refine still_trans ?_ (still_add_damage _ e)
    exact still_update _ _ p _ rfl rfl rfl (fun h => h)

theorem still_map_win (X : XServer) (s : State) (window : Window) :
    Still s (map_win X s window) := by
  unfold map_win
  cases h : get_client_from_window s window with
  | none => exact still_refl s
  | some p =>
    simp only
    have h1 : Still s
        { s with heap := Function.update s.heap p (with_map_state (s.heap p) IsViewable) } :=
      still_update _ _ p _ rfl rfl rfl (fun h => h)
    have h2 := still_determine_opaqueness X
      { s with heap := Function.update s.heap p (with_map_state (s.heap p) IsViewable) } p
    refine still_trans (still_trans h1 h2) ?_
    exact still_update _ _ p _ rfl rfl rfl (fun _ => rfl)

theorem restack_win_next (s : State) (M T : Window) : (restack_win s M T).next = s.next := by
  unfold restack_win
  simp only
  split
  · rfl
  · split
    · split <;> rfl
    · rfl

theorem still_restack_win (s : State) (M T : Window) : Still s (restack_win s M T) :=
  still_globals _ _ (restack_win_next s M T) (restack_win_heap s M T).1

theorem still_configure_client (s : State) (ce : XConfigureEvent) :
    Still s (configure_client s ce) := by
  unfold configure_client
  cases h : get_client_from_window s ce.window with
  | none =>
    simp only
    split
    · exact still_globals _ _ rfl rfl
    · exact still_refl s
  | some p =>
    simp only
    have h1 : Still s
        { s with heap := Function.update s.heap p (configure_geometry (s.heap p) ce) } :=
      still_update _ _ p _ rfl rfl rfl (fun h => h)
    have h2 := still_restack_win
      { s with heap := Function.update s.heap p (configure_geometry (s.heap p) ce) }
      ce.window ce.above
    have h3 := still_trans (still_trans h1 h2) (still_add_damage _
      ((match (s.heap p).extents with
      | some extents => extents
      | none => ∅) ∪ client_extents ((restack_win
        { s with heap := Function.update s.heap p (configure_geometry (s.heap p) ce) }
        ce.window ce.above).heap p)))
    refine still_trans h3 ?_
    exact still_update _ _ p (configure_shape_bounds _) rfl rfl rfl (fun h => h)

theorem still_circulate_client (s : State) (ce : XCirculateEvent) (uninit : Window) :
    Still s (circulate_client s ce uninit) := by
  unfold circulate_client
  cases h : get_client_from_window s ce.window with
  | none => exact still_refl s
  | some p =>
    simp only
    refine still_trans (still_restack_win s (s.heap p).window
      (if ce.place = PlaceOnTop then (s.heap (s.clients.headD p)).window
       else if ce.place = PlaceOnBottom then 0 else uninit)) ?_
    exact still_globals _ _ rfl rfl

theorem still_destroy_win (s : State) (window : Window) (gone : Bool) :
    Still s (destroy_win s window gone) := by
  unfold destroy_win
  simp only
  cases h : get_client_from_window s window with
  | none =>
    simp only
    exact still_globals _ _ rfl rfl
  | some p =>
    simp only
    have h0 : Still s (if gone = true then finish_unmap_client s p else s) := by
      split
      · exact still_finish_unmap_client s p
      · exact still_refl s
    have h1 : Still (if gone = true then finish_unmap_client s p else s)
        { (if gone = true then finish_unmap_client s p else s) with
          heap := Function.update (if gone = true then finish_unmap_client s p else s).heap p
            (destroy_release ((if gone = true then finish_unmap_client s p else s).heap p)) } :=
      still_update _ _ p _ rfl rfl rfl (fun h => h)
    refine still_trans (still_trans h0 h1) ?_
    exact still_globals _ _ rfl rfl

theorem still_add_client (X : XServer) (s : State) (window : Window)
    (uninit : Window_Opaqueness) : Still s (add_client X s window uninit) := by
  unfold add_client
  cases h : X.getWindowAttributes window with
  | none => exact still_refl s
  | some attr =>
    simp only
    have h1 : Still s
        { s with
          heap := Function.update s.heap s.next (new_client X window attr uninit)
          clients := s.next :: s.clients
          next := s.next + 1 } := by
      refine ⟨Nat.le_succ _, fun q hq => ?_⟩
      show (Function.update s.heap s.next (new_client X window attr uninit) q).window
          = (s.heap q).window
        ∧ ((s.heap q).damaged = 0 →
          (Function.update s.heap s.next (new_client X window attr uninit) q).damaged = 0)
      rw [Function.update_noteq (Nat.ne_of_lt hq)]
      exact ⟨rfl, fun h => h⟩
    split
    · exact still_trans h1 (still_map_win X _ window)
    · exact h1

theorem still_paint_all (X : XServer) (s : State) (region : XserverRegion) :
    Still s (paint_all X s region).1 :=
  ⟨le_refl _, fun q _ =>
    ⟨((paint_all_core X s region).1 q).1,
      fun h => (((paint_all_core X s region).1 q).2.2.2.1).trans h⟩⟩

theorem still_frame_step (X : XServer) (s : State) : Still s (frame_step X s).1 := by
  unfold frame_step
  cases h : s.all_damage with
  | none => exact still_refl s
  | some damage =>
    simp only
    exact still_trans (still_paint_all X s (some damage)) (still_globals _ _ rfl rfl)

theorem still_shape_win (X : XServer) (s : State) (se : XShapeEvent) :
    Still s (shape_win X s se).1 := by
  unfold shape_win
  cases h : get_client_from_window s se.window with
  | none => exact still_refl s
  | some p =>
    simp only
    split
    · refine still_trans ?_ (still_paint_all X _ _)
      refine still_update _ _ p _ rfl rfl ?_ (fun hb => ?_)
      · split <;> rfl
      · split
        · exact hb
        · exact hb
    · exact still_refl s

/-- A damage notification for another window leaves the record alone. -/
theorem damage_client_other (X : XServer) (s : State) (de : XDamageNotifyEvent)
    (W : Window) (p : Ptr) (hW : de.drawable ≠ W) (hs : Undamaged W p s) :
    Undamaged W p (damage_client X s de) := by
  unfold damage_client
  cases h : get_client_from_window s de.drawable with
  | none => exact hs
  | some q =>
    simp only
    have hq : p ≠ q := by
      intro e
      subst e
      exact hW ((lookup_some h).2.symm.trans hs.2.1)
    have hr := add_damage_rest s
      (if (s.heap q).damaged = 0 then client_extents (s.heap q)
       else XFixesTranslateRegion (X.damageSubtract (s.heap q).damage)
        ((s.heap q).attr.x + (s.heap q).attr.border_width)
        ((s.heap q).attr.y + (s.heap q).attr.border_width))
    refine ⟨?_, ?_, ?_⟩
    · show p < (add_damage s _).next
      rw [hr.2.2.1]; exact hs.1
    · simp only [Function.update_noteq hq, hr.2.1]; exact hs.2.1
    · simp only [Function.update_noteq hq, hr.2.1]; exact hs.2.2

theorem undamaged_main_step (X : XServer) (s : State) (step : MainStep) (W : Window)
    (p : Ptr) (hq : step.quietFor W) (hs : Undamaged W p s) :
    Undamaged W p (main_step X s step) := by
  cases step with
  | first_paint => exact still_undamaged (still_paint_all X s none) hs
  | frame => exact still_undamaged (still_frame_step X s) hs
  | event ev =>
    cases ev with
    | CreateNotify window uninit => exact still_undamaged (still_add_client X s window uninit) hs
    | ConfigureNotify ce => exact still_undamaged (still_configure_client s ce) hs
    | DestroyNotify window => exact still_undamaged (still_destroy_win s window true) hs
    | MapNotify window => exact still_undamaged (still_map_win X s window) hs
    | UnmapNotify window => exact still_undamaged (still_unmap_win s window) hs
    | ReparentNotify window parent uninit =>
      simp only [main_step, main_event]
      split
      · exact still_undamaged (still_add_client X s window uninit) hs
      · exact still_undamaged (still_destroy_win s window false) hs
    | CirculateNotify ce uninit =>
      exact still_undamaged (still_circulate_client s ce uninit) hs
    | Expose window count rects =>
      simp only [main_step, main_event]
      split
      · split
        · exact still_undamaged (still_add_damage s _) hs
        · exact hs
      · exact hs
    | PropertyNotify window background opacity =>
      simp only [main_step, main_event]
      have h1 : Undamaged W p (if background = true then
          (if s.root_tile ≠ 0 then { s with root_tile := 0 } else s) else s) := by
        split
        · split
          · exact still_undamaged (still_globals s _ rfl rfl) hs
          · exact hs
        · exact hs
      split
      · split
        · exact still_undamaged (still_determine_opaqueness X _ _) h1
        · exact h1
      · exact h1
    | DamageNotify de => exact damage_client_other X s de W p hq hs
    | ShapeNotify se => exact still_undamaged (still_shape_win X s se) hs
    | Other => exact hs

theorem undamaged_runMain (X : XServer) (W : Window) (p : Ptr) :
    ∀ (more : List MainStep) (s : State), (∀ step ∈ more, step.quietFor W) →
      Undamaged W p s → Undamaged W p (runMain X s more) := by
  intro more
  induction more with
  | nil => intro s _ h; exact h
  | cons step more ih =>
    intro s hq hs
    exact ih (main_step X s step) (fun st hst => hq st (List.mem_cons_of_mem _ hst))
      (undamaged_main_step X s step W p (hq step (List.mem_cons_self _ _)) hs)

/-! ## Unmapping and mapping again -/

/-- The record `map_win` leaves: undamaged, with the geometry it had. -/
theorem map_win_record (X : XServer) (s : State) (W : Window) (p : Ptr)
    (h : get_client_from_window s W = some p) :
    ((map_win X s W).heap p).damaged = 0
    ∧ ((map_win X s W).heap p).attr.x = (s.heap p).attr.x
    ∧ ((map_win X s W).heap p).attr.y = (s.heap p).attr.y
    ∧ ((map_win X s W).heap p).attr.width = (s.heap p).attr.width
    ∧ ((map_win X s W).heap p).attr.height = (s.heap p).attr.height
    ∧ ((map_win X s W).heap p).attr.border_width = (s.heap p).attr.border_width := by
  unfold map_win
  simp only [h, Function.update_same]
  rw [determine_opaqueness_record]
  simp [with_map_state]

/-- C12: for every window `W` registered in a state `main` reaches, at
address `p`: after `unmap_win` followed by `map_win` the client list is the
same list of addresses (so the record is at the same stacking position),
looking `W` up still yields `p`, the geometry (x, y, width, height, border
width) is the one the record had, and `damaged` is 0; and `damaged` is still
0 after any further run of `main` in which no damage notification for `W`
arrives, that is, in which `damage_client` is not run for `W`. -/
theorem unmap_then_map_win (X : XServer) (root_window : Window) (root_width root_height : Int)
    (root_picture : Picture) (steps more : List MainStep) (s : State) (W : Window) (p : Ptr)
    (hs : s = runMain X (State.init root_window root_width root_height root_picture) steps)
    (h : get_client_from_window s W = some p)
    (hq : ∀ step ∈ more, MainStep.quietFor W step) :
    (map_win X (unmap_win s W) W).clients = s.clients
    ∧ get_client_from_window (map_win X (unmap_win s W) W) W = some p
    ∧ ((map_win X (unmap_win s W) W).heap p).attr.x = (s.heap p).attr.x
    ∧ ((map_win X (unmap_win s W) W).heap p).attr.y = (s.heap p).attr.y
    ∧ ((map_win X (unmap_win s W) W).heap p).attr.width = (s.heap p).attr.width
    ∧ ((map_win X (unmap_win s W) W).heap p).attr.height = (s.heap p).attr.height
    ∧ ((map_win X (unmap_win s W) W).heap p).attr.border_width = (s.heap p).attr.border_width
    ∧ ((map_win X (unmap_win s W) W).heap p).damaged = 0
    ∧ ((runMain X (map_win X (unmap_win s W) W) more).heap p).damaged = 0 := by
  have hr : PaintReady s := by
    rw [hs]; exact ready_runMain X root_window root_width root_height root_picture steps
  have hk1 := keeps_unmap_win s W
  have hk := Keeps.trans hk1 (keeps_map_win X (unmap_win s W) W)
  have h1 : get_client_from_window (unmap_win s W) W = some p := (hk1.lookup W).trans h
  have h2 : get_client_from_window (map_win X (unmap_win s W) W) W = some p :=
    (hk.lookup W).trans h
  obtain ⟨_, _, _, _, _, _, _, _, ux, uy, uw, uh, ub, _, _⟩ := unmap_win_record s W p h
  obtain ⟨md, mx, my, mw, mh, mb⟩ := map_win_record X (unmap_win s W) W p h1
  have hu : Undamaged W p (map_win X (unmap_win s W) W) :=
    ⟨by rw [hk.2.1]; exact hr.2.1 p (lookup_some h).1, (lookup_some h2).2, md⟩
  exact ⟨hk.1, h2, mx.trans ux, my.trans uy, mw.trans uw, mh.trans uh, mb.trans ub, md,
    (undamaged_runMain X W p more _ hq hu).2.2⟩

/-- Window 1 (address 0, behind window 2) unmapped and mapped again after
`demoSteps`, in which it was damaged; then window 2 is damaged, a frame is
painted and window 1 is restacked. -/
theorem unmap_then_map_win_witness :
    (map_win demoMixed (unmap_win (runMain demoMixed (State.init 1000 100 100 40) demoSteps)
      1) 1).clients = (runMain demoMixed (State.init 1000 100 100 40) demoSteps).clients
    ∧ ((runMain demoMixed
        (map_win demoMixed (unmap_win (runMain demoMixed (State.init 1000 100 100 40)
          demoSteps) 1) 1)
        [MainStep.event (XEvent.DamageNotify { drawable := 2 }), MainStep.frame,
         MainStep.event (XEvent.CirculateNotify { window := 1, place := PlaceOnTop } 0)]).heap
        0).damaged = 0 :=
  ⟨(unmap_then_map_win demoMixed 1000 100 100 40 demoSteps
      [MainStep.event (XEvent.DamageNotify { drawable := 2 }), MainStep.frame,
       MainStep.event (XEvent.CirculateNotify { window := 1, place := PlaceOnTop } 0)]
      _ 1 0 rfl (by decide) (by simp [MainStep.quietFor])).1,
   (unmap_then_map_win demoMixed 1000 100 100 40 demoSteps
      [MainStep.event (XEvent.DamageNotify { drawable := 2 }), MainStep.frame,
       MainStep.event (XEvent.CirculateNotify { window := 1, place := PlaceOnTop } 0)]
      _ 1 0 rfl (by decide) (by simp [MainStep.quietFor])).2.2.2.2.2.2.2.2⟩

end Xcompmgr
